import Mathlib

/-!
Verification of the opencode-otel event-to-telemetry translation core
(`src/hooks.ts`, with counter/log names from `src/telemetry.ts`).

The dispatcher `handleEvent` is embedded shallowly:

* JavaScript numbers are modelled as `Rat` (all numeric payload fields in
  the source are plain JS numbers; timestamps from `Date.now()` are passed
  in as the explicit `now` argument, and `crypto.randomUUID()` as the
  explicit `uuid` argument, since both are environment inputs read exactly
  once per handler invocation).
* Attribute sets (`Attributes` objects) are association lists built in the
  same insertion order as the source; JS object-spread semantics (later
  keys win) are captured by `getAttr`, which returns the last binding.
* `Map`/`Set` state is modelled by association lists with
  insert-or-replace / delete, and plain lists of keys.
* Fallible/duck-typed payload fields are `Option`s; JS truthiness of a
  string (empty string is falsy) and of a number (zero is falsy) is
  modelled explicitly at each use site, mirroring the source's `if (x)`
  and `??` (nullish) distinctions.
-/

/-- Attribute values as they occur in the plugin: strings, JS numbers
(modelled as `Rat`) and booleans. -/
inductive AttrValue where
  | str (s : String)
  | num (q : Rat)
  | bool (b : Bool)
deriving DecidableEq

/-- `true` exactly on numeric attribute values (JS `typeof v === "number"`). -/
def AttrValue.isNum : AttrValue → Bool
  | .num _ => true
  | _ => false

/-- An attribute set, in insertion order. -/
abbrev Attrs : Type := List (String × AttrValue)

/-- Look up a key in an attribute set with JS object semantics: the last
binding for the key wins (object spread overwrites earlier keys). -/
def getAttr : Attrs → String → Option AttrValue
  | [], _ => none
  | (k', v) :: t, k =>
    match getAttr t k with
    | some r => some r
    | none => if k' = k then some v else none

/-- The two telemetry profiles (`TelemetryProfile` in `config.ts`). -/
inductive Profile where
  | opencode
  | claudeCode
deriving DecidableEq

/-- Metric/log name stem of a profile (`PROFILES[...].prefix` in
`telemetry.ts`): `"opencode"` resp. `"claude_code"`. -/
def prefixOf : Profile → String
  | .opencode => "opencode"
  | .claudeCode => "claude_code"

/-- The eight counters created in `initTelemetry` (`OtelMetrics`). The
dispatcher refers to counters through these fields; the exported counter
name is the profile stem plus the suffix below. -/
inductive CounterId where
  | sessionCount
  | linesOfCode
  | pullRequestCount
  | commitCount
  | costUsage
  | tokenUsage
  | toolDecision
  | activeTime
deriving DecidableEq

/-- Exported counter name (`meter.createCounter` calls in `telemetry.ts`). -/
def counterName (p : Profile) : CounterId → String
  | .sessionCount => prefixOf p ++ ".session.count"
  | .linesOfCode => prefixOf p ++ ".lines_of_code.count"
  | .pullRequestCount => prefixOf p ++ ".pull_request.count"
  | .commitCount => prefixOf p ++ ".commit.count"
  | .costUsage => prefixOf p ++ ".cost.usage"
  | .tokenUsage => prefixOf p ++ ".token.usage"
  | .toolDecision => prefixOf p ++ ".tool.decision"
  | .activeTime => prefixOf p ++ ".active_time.total"

/-- One emission handed to the external OTEL collaborator: either a counter
increment (`counter.add(amount, attrs)`) or a structured log event
(`emitEvent(prefixedName, unprefixedName, attrs)`, where `emitEvent` in
`telemetry.ts` stores the prefixed name as the record body and prepends the
`event.name` attribute). -/
inductive Emission where
  | metric (id : CounterId) (amount : Rat) (attrs : Attrs)
  | logEvent (body : String) (eventName : String) (attrs : Attrs)
deriving DecidableEq

/-- Attribute list of a log-event emission (empty for a metric). -/
def logAttrsOf : Emission → Attrs
  | .logEvent _ _ a => a
  | .metric _ _ _ => []

/-- `true` on metric emissions. -/
def Emission.isMetric : Emission → Bool
  | .metric _ _ _ => true
  | _ => false

/-- `true` on log-event emissions with the given unprefixed `event.name`. -/
def Emission.isLogNamed (name : String) : Emission → Bool
  | .logEvent _ n _ => n == name
  | _ => false

/-- JS string truthiness of an optional string: present and non-empty. -/
def truthyS : Option String → Bool
  | some v => v != ""
  | none => false

/-- JS nullish coalescing `a ?? b` on optional strings (an empty string is
not nullish and passes through). -/
def nullishStr (a b : Option String) : Option String :=
  match a with
  | some v => some v
  | none => b

/-- JS nullish coalescing on optional numbers. -/
def nullishNum (a b : Option Rat) : Option Rat :=
  match a with
  | some v => some v
  | none => b

/-- Decimal rendering of a JS number by `String(v)`. All numeric attribute
values the dispatcher builds are integers except `cost_usd` and elapsed
seconds; for integers this matches JS exactly, and non-integral values are
rendered as reduced fractions (their exact decimal form is immaterial to
the claims below, which only distinguish string-typed from number-typed
values or use integral inputs). -/
def numToString (q : Rat) : String :=
  if q.den = 1 then toString q.num else toString q.num ++ "/" ++ toString q.den

/-- Stand-in for `new Date(now).toISOString()`: an external formatting of
the current time; only the fact that it is some string depending on `now`
matters to the dispatcher. -/
def isoTimestamp (now : Rat) : String :=
  numToString now

/-- Whitespace recognised by JS `String.prototype.trim` (ASCII part; the
additional Unicode space characters never occur in the inputs considered
here). -/
def jsWS (c : Char) : Bool :=
  c = ' ' || c = '\t' || c = '\n' || c = '\r' || c = '\x0b' || c = '\x0c'

/-- JS `s.trim()`. -/
def jsTrim (s : String) : String :=
  String.mk (((s.data.dropWhile jsWS).reverse.dropWhile jsWS).reverse)

/-- The replacement `promptText.replace(/^"(.*)"$/s, "$1")`: if the string
has length at least two and both its first and last characters are `"`,
strip those two characters, else leave it unchanged. -/
def stripOuterQuotes (s : String) : String :=
  match s.data with
  | [] => s
  | c :: rest =>
    if c = '"' && rest.getLast? == some '"' then String.mk rest.dropLast else s

/-- `isPre pat l` : `pat` is a prefix of `l`. -/
def isPre : List Char → List Char → Bool
  | [], _ => true
  | _ :: _, [] => false
  | a :: as, b :: bs => a = b && isPre as bs

/-- JS `text.includes(pat)` : substring containment. -/
def containsSub (text pat : List Char) : Bool :=
  isPre pat text ||
    match text with
    | [] => false
    | _ :: t => containsSub t pat

/-- JS `s.includes(pat)` on strings. -/
def jsIncludes (s pat : String) : Bool :=
  containsSub s.data pat.data

/-- JS `s.split("\n")` on the character list: the newline-separated
segments, in order; the empty string yields one empty segment. -/
def splitNl : List Char → List (List Char)
  | [] => [[]]
  | c :: t =>
    if c = '\n' then [] :: splitNl t
    else
      match splitNl t with
      | h :: r => (c :: h) :: r
      | [] => [c] :: []

/-- Word character of JS regexes (`\w`). -/
def jsWordChar (c : Char) : Bool :=
  c.isAlphanum || c = '_'

/-- Word boundary (`\b`) before a word character, given the preceding
character (`none` at the start of the string). -/
def boundaryBefore : Option Char → Bool
  | none => true
  | some c => !jsWordChar c

/-- Word boundary (`\b`) after a word character, given the rest of the
string. -/
def boundaryAfter : List Char → Bool
  | [] => true
  | c :: _ => !jsWordChar c

/-- Consume an exact literal, returning the rest. -/
def dropLit : List Char → List Char → Option (List Char)
  | [], l => some l
  | _ :: _, [] => none
  | a :: as, b :: bs => if a = b then dropLit as bs else none

/-- Consume `\s+` (at least one JS-whitespace character, greedily). As every
literal following `\s+` in the source's patterns starts with a non-space
character, greedy consumption is exact. -/
def dropSpaces1 : List Char → Option (List Char)
  | [] => none
  | c :: t => if jsWS c then some (t.dropWhile jsWS) else none

/-- Consume `w₁\s+w₂\s+…\s+wₙ`, returning the rest. -/
def dropWords : List (List Char) → List Char → Option (List Char)
  | [], l => some l
  | [w], l => dropLit w l
  | w :: ws, l =>
    match dropLit w l with
    | some r =>
      match dropSpaces1 r with
      | some r' => dropWords ws r'
      | none => none
    | none => none

/-- `scanWords ws prev l` : does `\bw₁\s+w₂\s+…\s+wₙ\b` match anywhere in
`l`, where `prev` is the character just before `l` (`none` at the string
start)? All first/last literal characters in the source's patterns are word
characters, so `\b` reduces to the neighbour not being a word character. -/
def scanWords (ws : List (List Char)) : Option Char → List Char → Bool
  | prev, l =>
    (boundaryBefore prev &&
      match dropWords ws l with
      | some r => boundaryAfter r
      | none => false) ||
    match l with
    | [] => false
    | c :: t => scanWords ws (some c) t

/-- A character matched by `.` in a JS regex without the `s` flag (any
character except a line terminator). -/
def dotChar (c : Char) : Bool :=
  !(c = '\n' || c = '\r')

/-- Does `pull-request` occur in `l` reachable from the start through
`.`-matchable characters only (the `.*pull-request` tail of the third
pattern)? -/
def seekPullRequest : List Char → Bool
  | [] => false
  | c :: t =>
    isPre "pull-request".data (c :: t) || (dotChar c && seekPullRequest t)

/-- Does `--.*pull-request` match starting anywhere in `l` reachable
through `.`-matchable characters (the `.*--.*pull-request` tail)? -/
def seekDashDash : List Char → Bool
  | [] => false
  | c :: t =>
    (isPre "--".data (c :: t) &&
      match dropLit "--".data (c :: t) with
      | some r => seekPullRequest r
      | none => false) ||
    (dotChar c && seekDashDash t)

/-- `/\bgit\s+commit\b/.test(cmd)` from the bash-tool branch. -/
def testGitCommit (cmd : String) : Bool :=
  scanWords ["git".data, "commit".data] none cmd.data

/-- `/\bgh\s+pr\s+create\b/.test(cmd)` from the bash-tool branch. -/
def testGhPrCreate (cmd : String) : Bool :=
  scanWords ["gh".data, "pr".data, "create".data] none cmd.data

/-- `scanPushPR prev l` : does `\bgit\s+push\b.*--.*pull-request` match
anywhere in `l`? -/
def scanPushPR : Option Char → List Char → Bool
  | prev, l =>
    (boundaryBefore prev &&
      match dropWords ["git".data, "push".data] l with
      | some r => boundaryAfter r && seekDashDash r
      | none => false) ||
    match l with
    | [] => false
    | c :: t => scanPushPR (some c) t

/-- `/\bgit\s+push\b.*--.*pull-request/.test(cmd)` from the bash-tool
branch. -/
def testGitPushPR (cmd : String) : Bool :=
  scanPushPR none cmd.data

/-- Per-session state tracked by the dispatcher (`SessionState`). -/
structure SessionState where
  sessionId : String
  startedAt : Rat
  lastActivityAt : Rat
deriving DecidableEq

/-- In-flight tool-call arguments are opaque (`unknown`) in the source; the
dispatcher observes them only through the `.command` field (bash branch)
and through `JSON.stringify` (tool details). `serialized` carries the
latter image. -/
structure ArgsVal where
  command : Option String
  serialized : String
deriving DecidableEq

/-- Pending tool-call record (`ToolCallState`). -/
structure ToolCallState where
  tool : String
  startedAt : Rat
  args : Option ArgsVal
deriving DecidableEq

/-- The configuration fields the dispatcher reads (`OtelConfig`). -/
structure OtelConfig where
  telemetryProfile : Profile
  includeSessionId : Bool
  includeVersion : Bool
  logUserPrompts : Bool
  logToolDetails : Bool
deriving DecidableEq

/-- Mutable dispatcher state (`HookState`), with `Map`s as association
lists and the `Set` of emitted message ids as a list of keys. -/
structure HookState where
  config : OtelConfig
  sessions : List (String × SessionState)
  pendingToolCalls : List (String × ToolCallState)
  emittedMessageIds : List String
  eventSequence : Nat
  enabled : Bool
  userId : String
  terminalType : Option String
  promptId : Option String
  opencodeVersion : Option String
deriving DecidableEq

/-- `Map.set`: insert or replace, preserving insertion order. -/
def alSet {α : Type} : List (String × α) → String → α → List (String × α)
  | [], k, v => [(k, v)]
  | (k', v') :: t, k, v =>
    if k' = k then (k, v) :: t else (k', v') :: alSet t k v

/-- `Map.get`: first (and, as keys are unique, only) binding. -/
def alGet {α : Type} : List (String × α) → String → Option α
  | [], _ => none
  | (k', v') :: t, k => if k' = k then some v' else alGet t k

/-- `Map.delete`. -/
def alDelete {α : Type} (m : List (String × α)) (k : String) : List (String × α) :=
  m.filter (fun p => p.1 ≠ k)

/-- `commonAttributes(state, sessionId)`: base attributes on every metric
data point and log event. `if (sessionId && …)` and `if (state.terminalType)`
are JS truthiness tests, so empty strings are skipped. -/
def commonAttributes (s : HookState) (sessionId : Option String) : Attrs :=
  [("user.id", .str s.userId)]
  ++ (match sessionId with
      | some sid =>
        if sid != "" && s.config.includeSessionId then [("session.id", .str sid)] else []
      | none => [])
  ++ (match s.terminalType with
      | some t => if t != "" then [("terminal.type", .str t)] else []
      | none => [])
  ++ (if s.config.includeVersion then [("app.version", .str "0.1.0")] else [])

/-- `eventAttributes(state, sessionId)`: common attributes plus timestamp,
the current sequence number (read, then incremented — returning the
pre-increment value) and, when set, the prompt correlation id. Returns the
attributes together with the updated state. -/
def eventAttributes (s : HookState) (sessionId : Option String) (now : Rat) :
    Attrs × HookState :=
  (commonAttributes s sessionId
    ++ [("event.timestamp", .str (isoTimestamp now)),
        ("event.sequence", .num s.eventSequence)]
    ++ (match s.promptId with
        | some p => if p != "" then [("prompt.id", .str p)] else []
        | none => []),
   { s with eventSequence := s.eventSequence + 1 })

/-- The per-value transform of `stringifyNumericAttrs`:
`typeof v === "number" ? String(v) : v`. -/
def stringifyVal : AttrValue → AttrValue
  | .num n => .str (numToString n)
  | v => v

/-- `stringifyNumericAttrs(attrs)`: convert numeric values to their string
form, leaving keys and non-numeric values untouched. -/
def stringifyNumericAttrs (a : Attrs) : Attrs :=
  a.map (fun kv => (kv.1, stringifyVal kv.2))

/-- The per-emit-site encoding
`telemetry.profile === "claude-code" ? stringifyNumericAttrs(p) : p`. -/
def encodeAttrs (p : Profile) (a : Attrs) : Attrs :=
  match p with
  | .claudeCode => stringifyNumericAttrs a
  | .opencode => a

/-- How an emitted numeric payload value appears after `encodeAttrs`. -/
def encodeNumVal (p : Profile) (q : Rat) : AttrValue :=
  match p with
  | .claudeCode => .str (numToString q)
  | .opencode => .num q

/-- `telemetry.emitEvent(prefixedName, unprefixedName, attrs)`: the body is
the prefixed name, and the unprefixed name is prepended as the `event.name`
attribute. -/
def mkLog (p : Profile) (unprefixedName : String) (a : Attrs) : Emission :=
  .logEvent (prefixOf p ++ "." ++ unprefixedName) unprefixedName
    (("event.name", .str unprefixedName) :: a)

/-- The emission idiom repeated at every payload-carrying emit site of
`handleEvent`:
`emitEvent(prefixed, name, {...eventAttributes(state, sid), ...(profile === "claude-code" ? stringifyNumericAttrs(payload) : payload)})`.
Returns the updated state (sequence incremented) and the log emission. -/
def emitWithEventAttrs (s : HookState) (sid : Option String) (now : Rat)
    (name : String) (payload : Attrs) : HookState × Emission :=
  let (ea, s') := eventAttributes s sid now
  (s', mkLog s'.config.telemetryProfile name
        (ea ++ encodeAttrs s'.config.telemetryProfile payload))

/-- `SessionInfo`-shaped payload (`props.info` of session events). -/
structure SessionInfo where
  id : Option String
  title : Option String
  version : Option String
deriving DecidableEq

/-- `tokens.cache` of an assistant message. -/
structure CacheTokens where
  read : Option Rat
  write : Option Rat
deriving DecidableEq

/-- `tokens` of an assistant message (or step-finish part). -/
structure TokensVal where
  input : Option Rat
  output : Option Rat
  cache : Option CacheTokens
deriving DecidableEq

/-- `error.data` of an error payload. -/
structure ErrData where
  message : Option String
  statusCode : Option Rat
  isRetryable : Option Bool
deriving DecidableEq

/-- Error payload (`msg.error`, `part.error`, `props.error`). -/
structure ErrInfo where
  name : Option String
  data : Option ErrData
deriving DecidableEq

/-- `msg.time` of an assistant message. `none` fields model absent
(`undefined`) values. -/
structure TimeInfo where
  created : Option Rat
  completed : Option Rat
deriving DecidableEq

/-- Assistant-message payload (`props.info` of `message.updated`). `cost`
is `none` when absent or not a number (the source guards every use with
`typeof cost === "number"`). -/
structure MsgInfo where
  role : String
  sessionID : Option String
  id : String
  modelID : Option String
  tokens : Option TokensVal
  cost : Option Rat
  time : Option TimeInfo
  error : Option ErrInfo
deriving DecidableEq

/-- A message part of `message.part.updated` (the dispatcher only inspects
retry parts). -/
structure RetryPart where
  type : String
  sessionID : Option String
  attempt : Option Rat
  error : Option ErrInfo
deriving DecidableEq

/-- One entry of a `session.diff` payload. -/
structure DiffEntry where
  additions : Option Rat
  deletions : Option Rat
deriving DecidableEq

/-- `model` of a chat message (`{providerID, modelID}`). -/
structure ModelRef where
  providerID : String
  modelID : String
deriving DecidableEq

/-- One part of a chat message (only `type` and `text` are inspected). -/
structure MsgPart where
  type : String
  text : Option String
deriving DecidableEq

/-- The unified `{type, properties}` events routed to `handleEvent`, with
each constructor carrying exactly the payload fields the corresponding
branch reads. `other` stands for every unrecognised event type (silently
ignored). -/
inductive Ev where
  | commandBefore (command : String) (arguments' : String)
  | sessionCreated (info : Option SessionInfo) (id : Option String)
  | sessionIdle (info : Option SessionInfo) (id : Option String) (sessionID : Option String)
  | sessionStatus (info : Option SessionInfo) (id : Option String) (sessionID : Option String)
  | fileEdited (linesAdded : Option Rat) (added : Option Rat)
      (linesRemoved : Option Rat) (removed : Option Rat)
  | messagePartUpdated (part : RetryPart) (propsSessionID : Option String)
  | messageUpdated (info : Option MsgInfo)
  | sessionError (sessionID : Option String) (error : Option ErrInfo)
  | permissionReplied (sessionID : Option String) (response : String)
  | sessionDiff (sessionID : Option String) (diff : Option (List DiffEntry))
  | toolBefore (tool : String) (sessionID : Option String) (callID : String)
      (args : Option ArgsVal)
  | toolAfter (tool : String) (sessionID : Option String) (callID : String)
      (args : Option ArgsVal) (output : Option String)
  | chatMessage (sessionID : Option String) (agent : Option String)
      (model : Option ModelRef) (parts : List MsgPart)
  | other
deriving DecidableEq

/-- Result of `handleEvent` for the `/otel` command
(`HandleEventResult.otelToggled`). -/
structure HandleResult where
  otelToggled : Bool
deriving DecidableEq

/-- The new enabled flag after a `/otel` command: explicit `on`/`off`, and
anything else (after trim and lower-casing) toggles. -/
def toggleTarget (arguments' : String) (cur : Bool) : Bool :=
  let arg := (jsTrim arguments').toLower
  if arg = "on" then true
  else if arg = "off" then false
  else !cur

/-- The `/otel` command handler (`handleCommandBefore`): always processed,
regardless of the enabled flag. -/
def handleCommandBefore (s : HookState) (command arguments' : String) :
    HookState × List Emission × Option HandleResult :=
  if command ≠ "otel" then (s, [], none)
  else
    let enabled' := toggleTarget arguments' s.enabled
    ({ s with enabled := enabled' },
     [mkLog s.config.telemetryProfile "telemetry.toggled"
        [("telemetry.enabled", .bool enabled')]],
     some ⟨enabled'⟩)

/-- The `session.created` branch. -/
def handleSessionCreated (s : HookState) (info : Option SessionInfo)
    (idp : Option String) (now : Rat) : HookState × List Emission :=
  match nullishStr (info.bind (·.id)) idp with
  | none => (s, [])
  | some sid =>
    if sid = "" then (s, [])
    else
      let s1 := { s with sessions := alSet s.sessions sid ⟨sid, now, now⟩ }
      let s2 :=
        if !truthyS s1.opencodeVersion && truthyS (info.bind (·.version)) then
          { s1 with opencodeVersion := info.bind (·.version) }
        else s1
      let m := Emission.metric .sessionCount 1 (commonAttributes s2 (some sid))
      if s2.config.telemetryProfile ≠ .claudeCode then
        let pr := eventAttributes s2 (some sid) now
        (pr.2, [m, mkLog pr.2.config.telemetryProfile "session.created"
                  (pr.1 ++ [("session.title", .str ((info.bind (·.title)).getD ""))])])
      else (s2, [m])

/-- The `session.idle` branch: look the session up, emit active time when
strictly positive, and refresh `lastActivityAt`. -/
def handleSessionIdle (s : HookState) (info : Option SessionInfo)
    (idp sidp : Option String) (now : Rat) : HookState × List Emission :=
  let sessionId := nullishStr (info.bind (·.id)) (nullishStr idp sidp)
  match sessionId with
  | none => (s, [])
  | some sid =>
    if sid = "" then (s, [])
    else
      match alGet s.sessions sid with
      | none => (s, [])
      | some session =>
        let activeSeconds : Rat := (now - session.lastActivityAt) / 1000
        let ems :=
          if 0 < activeSeconds then
            [Emission.metric .activeTime activeSeconds (commonAttributes s (some sid))]
          else []
        ({ s with sessions := alSet s.sessions sid { session with lastActivityAt := now } },
         ems)

/-- The `session.status` branch: refresh `lastActivityAt` only. -/
def handleSessionStatus (s : HookState) (info : Option SessionInfo)
    (idp sidp : Option String) (now : Rat) : HookState × List Emission :=
  let sessionId := nullishStr (info.bind (·.id)) (nullishStr idp sidp)
  match sessionId with
  | none => (s, [])
  | some sid =>
    if sid = "" then (s, [])
    else
      match alGet s.sessions sid with
      | none => (s, [])
      | some session =>
        ({ s with sessions := alSet s.sessions sid { session with lastActivityAt := now } },
         [])

/-- The `file.edited` branch. -/
def handleFileEdited (s : HookState)
    (linesAdded added linesRemoved removed : Option Rat) : HookState × List Emission :=
  let a := (nullishNum linesAdded added).getD 0
  let r := (nullishNum linesRemoved removed).getD 0
  (s,
   (if 0 < a then
      [Emission.metric .linesOfCode a (commonAttributes s none ++ [("type", .str "added")])]
    else [])
   ++ (if 0 < r then
      [Emission.metric .linesOfCode r (commonAttributes s none ++ [("type", .str "removed")])]
    else []))

/-- The `api_error` payload of the retry-part branch. -/
def retryErrorPayload (part : RetryPart) : Attrs :=
  [("error.name", .str ((part.error.bind (·.name)).getD "APIError")),
   ("error.message", .str (((part.error.bind (·.data)).bind (·.message)).getD "unknown")),
   ("attempt", .num (part.attempt.getD 0))]
  ++ (match (part.error.bind (·.data)).bind (·.statusCode) with
      | some sc => if sc ≠ 0 then [("error.status_code", .num sc)] else []
      | none => [])
  ++ (match (part.error.bind (·.data)).bind (·.isRetryable) with
      | some b => [("error.is_retryable", .bool b)]
      | none => [])

/-- The `message.part.updated` branch: retry parts emit an `api_error` log
event (with no de-duplication, by design). -/
def handlePartUpdated (s : HookState) (part : RetryPart)
    (propsSessionID : Option String) (now : Rat) : HookState × List Emission :=
  if part.type ≠ "retry" then (s, [])
  else
    let sessionId := nullishStr part.sessionID propsSessionID
    let p1 := emitWithEventAttrs s sessionId now "api_error" (retryErrorPayload part)
    (p1.1, [p1.2])

/-- `emitTokenMetrics(state, sessionId, tokens, model)`: up to four
`token.usage` increments, one per non-zero (truthy) field. -/
def emitTokenMetrics (s : HookState) (sessionId : Option String)
    (tokens : TokensVal) (model : String) : List Emission :=
  (match tokens.input with
   | some n => if n ≠ 0 then
       [Emission.metric .tokenUsage n
         (commonAttributes s sessionId ++ [("type", .str "input"), ("model", .str model)])]
     else []
   | none => [])
  ++ (match tokens.output with
      | some n => if n ≠ 0 then
          [Emission.metric .tokenUsage n
            (commonAttributes s sessionId ++ [("type", .str "output"), ("model", .str model)])]
        else []
      | none => [])
  ++ (match tokens.cache.bind (·.read) with
      | some n => if n ≠ 0 then
          [Emission.metric .tokenUsage n
            (commonAttributes s sessionId ++ [("type", .str "cacheRead"), ("model", .str model)])]
        else []
      | none => [])
  ++ (match tokens.cache.bind (·.write) with
      | some n => if n ≠ 0 then
          [Emission.metric .tokenUsage n
            (commonAttributes s sessionId ++ [("type", .str "cacheCreation"), ("model", .str model)])]
        else []
      | none => [])

/-- Request duration `time.completed − time.created` of an assistant
message, zero when either endpoint is absent or falsy (the source's
`(msg.time.completed && msg.time.created) ? … : 0`). -/
def msgDurationMs (time : Option TimeInfo) : Rat :=
  match time.bind (·.completed), time.bind (·.created) with
  | some completedV, some createdV =>
    if completedV ≠ 0 ∧ createdV ≠ 0 then completedV - createdV else 0
  | _, _ => 0

/-- The `api_request` payload of the `message.updated` branch
(token counts zero-filled when absent). -/
def apiRequestPayload (msg : MsgInfo) (tokens : TokensVal) (model : String) : Attrs :=
  [("model", .str model),
   ("input_tokens", .num (tokens.input.getD 0)),
   ("output_tokens", .num (tokens.output.getD 0)),
   ("cache_read_tokens", .num ((tokens.cache.bind (·.read)).getD 0)),
   ("cache_creation_tokens", .num ((tokens.cache.bind (·.write)).getD 0)),
   ("cost_usd", .num (msg.cost.getD 0)),
   ("duration_ms", .num (msgDurationMs msg.time)),
   ("speed", .str "normal")]

/-- The `api_error` payload of the `message.updated` branch (this branch
carries no `error.is_retryable`, unlike `session.error`). -/
def msgErrorPayload (e : ErrInfo) : Attrs :=
  [("error.name", .str (e.name.getD "UnknownError")),
   ("error.message", .str ((e.data.bind (·.message)).getD "unknown"))]
  ++ (match e.data.bind (·.statusCode) with
      | some sc => if sc ≠ 0 then [("error.status_code", .num sc)] else []
      | none => [])

/-- The `cost.usage` increment of the `message.updated` branch (only when
the cost is a positive number). -/
def costEmissions (s1 : HookState) (msg : MsgInfo) (model : String) : List Emission :=
  match msg.cost with
  | some c =>
    if 0 < c then
      [Emission.metric .costUsage c
         (commonAttributes s1 msg.sessionID ++ [("model", .str model)])]
    else []
  | none => []

/-- The `message.updated` branch: the authoritative token/cost source, with
per-message-id de-duplication. -/
def handleMessageUpdated (s : HookState) (info : Option MsgInfo) (now : Rat) :
    HookState × List Emission :=
  match info with
  | none => (s, [])
  | some msg =>
    if msg.role ≠ "assistant" then (s, [])
    else
      let model := msg.modelID.getD "unknown"
      match msg.tokens with
      | none => (s, [])
      | some tokens =>
        if msg.id ∈ s.emittedMessageIds then (s, [])
        else
          match msg.time.bind (·.completed) with
          | none => (s, [])
          | some _ =>
            let s1 := { s with emittedMessageIds := msg.id :: s.emittedMessageIds }
            let tokenEms := emitTokenMetrics s1 msg.sessionID tokens model
            let costEms := costEmissions s1 msg model
            let p1 := emitWithEventAttrs s1 msg.sessionID now "api_request"
                        (apiRequestPayload msg tokens model)
            match msg.error with
            | none => (p1.1, tokenEms ++ costEms ++ [p1.2])
            | some e =>
              let p2 := emitWithEventAttrs p1.1 msg.sessionID now "api_error"
                          (msgErrorPayload e)
              (p2.1, tokenEms ++ costEms ++ [p1.2, p2.2])

/-- The `api_error` payload of the `session.error` branch. -/
def sessionErrorPayload (e : ErrInfo) : Attrs :=
  [("error.name", .str (e.name.getD "UnknownError")),
   ("error.message", .str ((e.data.bind (·.message)).getD "unknown"))]
  ++ (match e.data.bind (·.statusCode) with
      | some sc => if sc ≠ 0 then [("error.status_code", .num sc)] else []
      | none => [])
  ++ (match e.data.bind (·.isRetryable) with
      | some b => [("error.is_retryable", .bool b)]
      | none => [])

/-- The `session.error` branch. -/
def handleSessionError (s : HookState) (sessionID : Option String)
    (error : Option ErrInfo) (now : Rat) : HookState × List Emission :=
  match error with
  | none => (s, [])
  | some e =>
    let p1 := emitWithEventAttrs s sessionID now "api_error" (sessionErrorPayload e)
    (p1.1, [p1.2])

/-- The `permission.replied` branch: `"once"`/`"always"` count as accept,
everything else as reject. -/
def handlePermissionReplied (s : HookState) (sessionID : Option String)
    (response : String) : HookState × List Emission :=
  let decision := if response = "once" ∨ response = "always" then "accept" else "reject"
  (s, [Emission.metric .toolDecision 1
         (commonAttributes s sessionID ++ [("decision", .str decision)])])

/-- The `session.diff` branch: sum additions/deletions over all entries. -/
def handleSessionDiff (s : HookState) (sessionID : Option String)
    (diff : Option (List DiffEntry)) : HookState × List Emission :=
  match diff with
  | none => (s, [])
  | some ds =>
    let totalAdded := ds.foldl (fun acc d => acc + d.additions.getD 0) (0 : Rat)
    let totalRemoved := ds.foldl (fun acc d => acc + d.deletions.getD 0) (0 : Rat)
    (s,
     (if 0 < totalAdded then
        [Emission.metric .linesOfCode totalAdded
           (commonAttributes s sessionID ++ [("type", .str "added")])]
      else [])
     ++ (if 0 < totalRemoved then
        [Emission.metric .linesOfCode totalRemoved
           (commonAttributes s sessionID ++ [("type", .str "removed")])]
      else []))

/-- The `tool.execute.before` branch: register the pending call. -/
def handleToolBefore (s : HookState) (tool : String) (_sessionID : Option String)
    (callID : String) (args : Option ArgsVal) (now : Rat) : HookState × List Emission :=
  ({ s with pendingToolCalls := alSet s.pendingToolCalls callID ⟨tool, now, args⟩ }, [])

/-- Commit/PR detection for bash tool calls (the `tool === "bash"` block of
the `tool.execute.after` branch). -/
def bashGitEmissions (s1 : HookState) (tool : String) (sessionID : Option String)
    (args : Option ArgsVal) : List Emission :=
  if tool = "bash" then
    match args.bind (·.command) with
    | some cmd =>
      (if testGitCommit cmd then
         [Emission.metric .commitCount 1 (commonAttributes s1 sessionID)]
       else [])
      ++ (if testGhPrCreate cmd || testGitPushPR cmd then
         [Emission.metric .pullRequestCount 1 (commonAttributes s1 sessionID)]
       else [])
    | none => []
  else []

/-- The heuristic line count of a write/edit tool's textual output:
`outStr.split("\n").length` where `outStr` is `""` when the output is
absent or not a string. -/
def writeEditLineCount (output : Option String) : Nat :=
  (splitNl (output.getD "").data).length

/-- Line-of-code detection for write/edit tools (the
`tool === "write" || tool === "edit"` block of the `tool.execute.after`
branch). -/
def writeEditEmissions (s1 : HookState) (tool : String) (sessionID : Option String)
    (output : Option String) : List Emission :=
  if tool = "write" ∨ tool = "edit" then
    if 0 < writeEditLineCount output then
      [Emission.metric .linesOfCode (writeEditLineCount output)
         (commonAttributes s1 sessionID
          ++ [("type", .str (if tool = "write" then "added" else "modified"))])]
    else []
  else []

/-- The `success` heuristic `!output?.includes("Error")` of the
`tool.execute.after` branch (absent output is success). -/
def toolSuccess (output : Option String) : Bool :=
  match output with
  | some o => !jsIncludes o "Error"
  | none => true

/-- The `tool_result` payload of the `tool.execute.after` branch. -/
def toolResultPayload (s1 : HookState) (tool : String) (args : Option ArgsVal)
    (output : Option String) (durationMs : Rat) : Attrs :=
  [("tool_name", .str (if s1.config.logToolDetails then tool else "redacted")),
   ("duration_ms", .num durationMs),
   ("success", .bool (toolSuccess output))]
  ++ (if s1.config.logToolDetails then
        [("tool_args", .str ((match args with
            | some a => a.serialized
            | none => "\x7b\x7d").take 2048)),
         ("tool_result_size_bytes", .num (match output with
            | some o => (o.length : Rat)
            | none => 0))]
      else [])

/-- The `tool.execute.after` branch: consume the pending call (zero
duration when absent), detect commits/PRs and write/edit line counts, and
emit the `tool_result` log event. -/
def handleToolAfter (s : HookState) (tool : String) (sessionID : Option String)
    (callID : String) (args : Option ArgsVal) (output : Option String) (now : Rat) :
    HookState × List Emission :=
  let durationMs : Rat :=
    match alGet s.pendingToolCalls callID with
    | some p => now - p.startedAt
    | none => 0
  let s1 := { s with pendingToolCalls := alDelete s.pendingToolCalls callID }
  let p1 := emitWithEventAttrs s1 sessionID now "tool_result"
              (toolResultPayload s1 tool args output durationMs)
  (p1.1, bashGitEmissions s1 tool sessionID args
       ++ writeEditEmissions s1 tool sessionID output
       ++ [p1.2])

/-- The cleaned prompt text of a chat message: keep the parts with
`type === "text"` and truthy (non-empty) `text`, join by newline, trim and
strip one layer of surrounding double quotes. -/
def cleanedPrompt (parts : List MsgPart) : String :=
  stripOuterQuotes (jsTrim (String.intercalate "\n"
    ((parts.filter (fun p => p.type == "text" && truthyS p.text)).map
      (fun p => p.text.getD ""))))

/-- The `user_prompt` payload of the `chat.message` branch (the fresh
prompt id is installed in the state before this payload is built). -/
def userPromptPayload (s1 : HookState) (agent : Option String)
    (model : Option ModelRef) (promptText : String) : Attrs :=
  [("prompt_length", .num promptText.length)]
  ++ (match agent with
      | some a => if a != "" then [("agent", .str a)] else []
      | none => [])
  ++ (match model with
      | some m => [("model.provider", .str m.providerID), ("model.id", .str m.modelID)]
      | none => [])
  ++ (if s1.config.logUserPrompts then [("prompt", .str (promptText.take 4096))] else [])

/-- The `chat.message` branch body. -/
def handleChatMessage (s : HookState) (sessionID : Option String)
    (agent : Option String) (model : Option ModelRef) (parts : List MsgPart)
    (now : Rat) (uuid : String) : HookState × List Emission :=
  let s1 := { s with promptId := some uuid }
  let p1 := emitWithEventAttrs s1 sessionID now "user_prompt"
              (userPromptPayload s1 agent model (cleanedPrompt parts))
  (p1.1, [p1.2])

/-- The switch over server/synthetic event types (everything after the
enabled-flag guard in `handleEvent`). -/
def dispatch (s : HookState) (ev : Ev) (now : Rat) (uuid : String) :
    HookState × List Emission :=
  match ev with
  | .commandBefore _ _ => (s, [])
  | .sessionCreated info idp => handleSessionCreated s info idp now
  | .sessionIdle info idp sidp => handleSessionIdle s info idp sidp now
  | .sessionStatus info idp sidp => handleSessionStatus s info idp sidp now
  | .fileEdited la a lr r => handleFileEdited s la a lr r
  | .messagePartUpdated part psid => handlePartUpdated s part psid now
  | .messageUpdated info => handleMessageUpdated s info now
  | .sessionError sid err => handleSessionError s sid err now
  | .permissionReplied sid resp => handlePermissionReplied s sid resp
  | .sessionDiff sid diff => handleSessionDiff s sid diff
  | .toolBefore tool sid cid args => handleToolBefore s tool sid cid args now
  | .toolAfter tool sid cid args output => handleToolAfter s tool sid cid args output now
  | .chatMessage sid agent model parts => handleChatMessage s sid agent model parts now uuid
  | .other => (s, [])

/-- `handleEvent(state, event)`: the central dispatcher. The `/otel`
command is always processed; every other event is skipped entirely while
the enabled flag is false. `now` is the value `Date.now()` returns during
this invocation and `uuid` the value `randomUUID()` would return. -/
def handleEvent (s : HookState) (ev : Ev) (now : Rat) (uuid : String) :
    HookState × List Emission × Option HandleResult :=
  match ev with
  | .commandBefore c a => handleCommandBefore s c a
  | _ =>
    if s.enabled then
      ((dispatch s ev now uuid).1, (dispatch s ev now uuid).2, none)
    else (s, [], none)

/-- One inbound step: the event together with the environment inputs read
while handling it. -/
structure StepIn where
  ev : Ev
  now : Rat
  uuid : String

/-- Process a list of inbound events in delivery order, collecting all
emissions. -/
def runSteps (s : HookState) : List StepIn → HookState × List Emission
  | [] => (s, [])
  | i :: rest =>
    let out := handleEvent s i.ev i.now i.uuid
    let tail := runSteps out.1 rest
    (tail.1, out.2.1 ++ tail.2)

/-- Appending attribute sets: the lookup prefers the later (right) list,
matching JS object spread. -/
theorem getAttr_append (xs ys : Attrs) (k : String) :
    getAttr (xs ++ ys) k =
      match getAttr ys k with
      | some v => some v
      | none => getAttr xs k := by
  induction xs with
  | nil =>
    simp only [List.nil_append, getAttr]
    cases getAttr ys k <;> rfl
  | cons x t ih =>
    obtain ⟨k', v⟩ := x
    simp only [List.cons_append, getAttr, List.append_eq]
    rw [ih]
    cases getAttr ys k <;> rfl

/-- A key bound nowhere in an attribute set looks up to `none`. -/
theorem getAttr_none_of_keys (a : Attrs) (k : String)
    (h : ∀ kv ∈ a, kv.1 ≠ k) : getAttr a k = none := by
  induction a with
  | nil => rfl
  | cons x t ih =>
    simp only [getAttr]
    rw [ih (fun kv hkv => h kv (List.mem_cons_of_mem _ hkv))]
    simp [h x (List.mem_cons_self _ _)]

/-- Membership in a conditional singleton-or-empty segment. -/
theorem mem_ite_nil {α : Type} {c : Prop} [Decidable c] {l : List α} {a : α}
    (h : a ∈ if c then l else []) : a ∈ l := by
  split at h
  · exact h
  · cases h

/-- Every binding of `commonAttributes` uses one of its four fixed keys. -/
theorem commonAttributes_keys (s : HookState) (sid : Option String) :
    ∀ kv ∈ commonAttributes s sid,
      kv.1 = "user.id" ∨ kv.1 = "session.id" ∨ kv.1 = "terminal.type" ∨
      kv.1 = "app.version" := by
  intro kv hkv
  unfold commonAttributes at hkv
  simp only [List.append_assoc, List.mem_append, List.mem_cons,
    List.not_mem_nil, or_false] at hkv
  rcases hkv with h | h | h | h
  · subst h; left; rfl
  · rcases sid with _ | v
    · cases h
    · have := mem_ite_nil h
      simp only [List.mem_singleton] at this
      subst this; right; left; rfl
  · rcases hs : s.terminalType with _ | t
    · rw [hs] at h; cases h
    · rw [hs] at h
      have := mem_ite_nil h
      simp only [List.mem_singleton] at this
      subst this; right; right; left; rfl
  · have := mem_ite_nil h
    simp only [List.mem_singleton] at this
    subst this; right; right; right; rfl

/-- Every binding of `commonAttributes` carries a string value. -/
theorem commonAttributes_noNum (s : HookState) (sid : Option String) :
    ∀ kv ∈ commonAttributes s sid, kv.2.isNum = false := by
  intro kv hkv
  unfold commonAttributes at hkv
  simp only [List.append_assoc, List.mem_append, List.mem_cons,
    List.not_mem_nil, or_false] at hkv
  rcases hkv with h | h | h | h
  · subst h; rfl
  · rcases sid with _ | v
    · cases h
    · have := mem_ite_nil h
      simp only [List.mem_singleton] at this
      subst this; rfl
  · rcases hs : s.terminalType with _ | t
    · rw [hs] at h; cases h
    · rw [hs] at h
      have := mem_ite_nil h
      simp only [List.mem_singleton] at this
      subst this; rfl
  · have := mem_ite_nil h
    simp only [List.mem_singleton] at this
    subst this; rfl

/-- A key different from the four fixed ones is unbound in
`commonAttributes`. -/
theorem getAttr_common_none (s : HookState) (sid : Option String) (k : String)
    (h1 : k ≠ "user.id") (h2 : k ≠ "session.id") (h3 : k ≠ "terminal.type")
    (h4 : k ≠ "app.version") : getAttr (commonAttributes s sid) k = none := by
  apply getAttr_none_of_keys
  intro kv hkv
  rcases commonAttributes_keys s sid kv hkv with h | h | h | h <;> rw [h]
  · exact fun e => h1 e.symm
  · exact fun e => h2 e.symm
  · exact fun e => h3 e.symm
  · exact fun e => h4 e.symm

/-- The attributes produced by `eventAttributes` bind `event.sequence` to
the pre-increment sequence counter. -/
theorem getAttr_event_seq (s : HookState) (sid : Option String) (now : Rat) :
    getAttr (eventAttributes s sid now).1 "event.sequence" =
      some (.num s.eventSequence) := by
  unfold eventAttributes
  simp only
  rw [getAttr_append, getAttr_append]
  have hp : getAttr (match s.promptId with
      | some p => if p != "" then [("prompt.id", AttrValue.str p)] else []
      | none => []) "event.sequence" = none := by
    rcases s.promptId with _ | p
    · rfl
    · simp only
      split <;> rfl
  rw [hp]
  rfl

/-- The state returned by `eventAttributes` only increments the sequence
counter. -/
theorem eventAttributes_state (s : HookState) (sid : Option String) (now : Rat) :
    (eventAttributes s sid now).2 = { s with eventSequence := s.eventSequence + 1 } := rfl

/-- In the attributes produced by `eventAttributes`, the only numeric value
is bound to `event.sequence`. -/
theorem eventAttributes_numOnlySeq (s : HookState) (sid : Option String) (now : Rat) :
    ∀ kv ∈ (eventAttributes s sid now).1, kv.2.isNum = true → kv.1 = "event.sequence" := by
  intro kv hkv hnum
  unfold eventAttributes at hkv
  simp only [List.append_assoc, List.mem_append, List.mem_cons, List.not_mem_nil,
    or_false] at hkv
  rcases hkv with h | (h | h) | h
  · exact absurd hnum (by simp [commonAttributes_noNum s sid kv h])
  · subst h; cases hnum
  · subst h; rfl
  · rcases hs : s.promptId with _ | p
    · rw [hs] at h; cases h
    · rw [hs] at h
      have := mem_ite_nil h
      simp only [List.mem_singleton] at this
      subst this; cases hnum

/-- Lookup through `stringifyNumericAttrs`: keys are preserved and values
pass through `stringifyVal`. -/
theorem getAttr_stringify (a : Attrs) (k : String) :
    getAttr (stringifyNumericAttrs a) k = (getAttr a k).map stringifyVal := by
  induction a with
  | nil => rfl
  | cons x t ih =>
    obtain ⟨k', v⟩ := x
    simp only [stringifyNumericAttrs, List.map_cons, getAttr] at ih ⊢
    rw [ih]
    cases getAttr t k
    · by_cases hk : k' = k <;> simp [hk]
    · rfl

/-- No value in a stringified attribute set is numeric. -/
theorem stringify_noNum (a : Attrs) :
    ∀ kv ∈ stringifyNumericAttrs a, kv.2.isNum = false := by
  intro kv hkv
  unfold stringifyNumericAttrs at hkv
  rcases List.mem_map.mp hkv with ⟨⟨k', v⟩, _, he⟩
  subst he
  cases v <;> rfl

/-- Lookup through `encodeAttrs`. -/
theorem getAttr_encode (p : Profile) (a : Attrs) (k : String) :
    getAttr (encodeAttrs p a) k =
      match p with
      | .claudeCode => (getAttr a k).map stringifyVal
      | .opencode => getAttr a k := by
  cases p
  · rfl
  · exact getAttr_stringify a k

/-- The state part of `emitWithEventAttrs` only increments the sequence
counter. -/
theorem emitWith_state (s : HookState) (sid : Option String) (now : Rat)
    (name : String) (payload : Attrs) :
    (emitWithEventAttrs s sid now name payload).1 =
      { s with eventSequence := s.eventSequence + 1 } := rfl

/-- The emission part of `emitWithEventAttrs` is the log event with the
given unprefixed name. -/
theorem emitWith_emission (s : HookState) (sid : Option String) (now : Rat)
    (name : String) (payload : Attrs) :
    (emitWithEventAttrs s sid now name payload).2 =
      .logEvent (prefixOf s.config.telemetryProfile ++ "." ++ name) name
        (("event.name", .str name)
          :: ((eventAttributes s sid now).1
              ++ encodeAttrs s.config.telemetryProfile payload)) := rfl

/-- Unfolding `getAttr` one binding at a time. -/
theorem getAttr_cons (k' : String) (v : AttrValue) (t : Attrs) (k : String) :
    getAttr ((k', v) :: t) k =
      match getAttr t k with
      | some r => some r
      | none => if k' = k then some v else none := rfl

/-- Attribute lookup on an `emitWithEventAttrs` emission: a key bound in
the payload is found there (after profile encoding), because the payload
is spread last. -/
theorem getAttr_emitWith_payload (s : HookState) (sid : Option String) (now : Rat)
    (name : String) (payload : Attrs) (k : String) (v : AttrValue)
    (hp : getAttr payload k = some v) :
    getAttr (logAttrsOf (emitWithEventAttrs s sid now name payload).2) k =
      some (match s.config.telemetryProfile with
            | .claudeCode => stringifyVal v
            | .opencode => v) := by
  rw [emitWith_emission]
  simp only [logAttrsOf]
  rw [getAttr_cons, getAttr_append, getAttr_encode]
  cases s.config.telemetryProfile <;> rw [hp] <;> rfl

/-- Attribute lookup on an `emitWithEventAttrs` emission: a key bound
neither in the payload nor among the event/common attribute keys nor equal
to `event.name` is absent. -/
theorem getAttr_emitWith_none (s : HookState) (sid : Option String) (now : Rat)
    (name : String) (payload : Attrs) (k : String)
    (hp : getAttr payload k = none)
    (h0 : k ≠ "event.name") (h1 : k ≠ "user.id") (h2 : k ≠ "session.id")
    (h3 : k ≠ "terminal.type") (h4 : k ≠ "app.version")
    (h5 : k ≠ "event.timestamp") (h6 : k ≠ "event.sequence") (h7 : k ≠ "prompt.id") :
    getAttr (logAttrsOf (emitWithEventAttrs s sid now name payload).2) k = none := by
  have hea : getAttr (eventAttributes s sid now).1 k = none := by
    unfold eventAttributes
    simp only
    rw [getAttr_append, getAttr_append]
    have hpid : getAttr (match s.promptId with
        | some p => if p != "" then [("prompt.id", AttrValue.str p)] else []
        | none => []) k = none := by
      rcases s.promptId with _ | p
      · rfl
      · simp only
        split
        · simp [getAttr, h7.symm]
        · rfl
    rw [hpid, getAttr_common_none s sid k h1 h2 h3 h4]
    simp [getAttr, h5.symm, h6.symm]
  rw [emitWith_emission]
  simp only [logAttrsOf]
  rw [getAttr_cons, getAttr_append, getAttr_encode]
  cases s.config.telemetryProfile <;> rw [hp] <;> simp [hea, h0.symm]

/-- The `event.sequence` value carried by an emission: present exactly on
log events built from `eventAttributes`. -/
def seqOf : Emission → Option Rat
  | .logEvent _ _ attrs =>
    match getAttr attrs "event.sequence" with
    | some (.num q) => some q
    | _ => none
  | .metric _ _ _ => none

/-- The `event.sequence` values of a list of emissions, in emission order. -/
def seqVals (ems : List Emission) : List Rat :=
  ems.filterMap seqOf

/-- The consecutive sequence values `n, n+1, …, n+k-1`. -/
def consecFrom (n k : Nat) : List Rat :=
  (List.range k).map (fun i => ((n + i : Nat) : Rat))

theorem seqVals_append (a b : List Emission) :
    seqVals (a ++ b) = seqVals a ++ seqVals b :=
  List.filterMap_append a b seqOf

theorem consecFrom_zero (n : Nat) : consecFrom n 0 = [] := rfl

theorem consecFrom_one (n : Nat) : consecFrom n 1 = [((n : Nat) : Rat)] := by
  have h : List.range 1 = [0] := rfl
  simp [consecFrom, h]

theorem consecFrom_append (n a b : Nat) :
    consecFrom n a ++ consecFrom (n + a) b = consecFrom n (a + b) := by
  unfold consecFrom
  rw [List.range_add, List.map_append, List.map_map]
  congr 1
  apply List.map_congr_left
  intro i _
  simp [Function.comp, Nat.add_assoc]

/-- An `emitWithEventAttrs` emission carries the pre-increment sequence
number, provided the payload does not itself bind `event.sequence` (no
payload in the dispatcher does). -/
theorem seqOf_emitWith (s : HookState) (sid : Option String) (now : Rat)
    (name : String) (payload : Attrs)
    (hp : getAttr payload "event.sequence" = none) :
    seqOf (emitWithEventAttrs s sid now name payload).2 =
      some ((s.eventSequence : Nat) : Rat) := by
  have h : getAttr (logAttrsOf (emitWithEventAttrs s sid now name payload).2)
      "event.sequence" = some (.num s.eventSequence) := by
    rw [emitWith_emission]
    simp only [logAttrsOf]
    rw [getAttr_cons, getAttr_append, getAttr_encode]
    cases s.config.telemetryProfile <;> rw [hp] <;> simp [getAttr_event_seq]
  rw [emitWith_emission] at h ⊢
  simp only [logAttrsOf] at h
  simp only [seqOf]
  rw [h]

theorem getAttr_retryPayload_seq (part : RetryPart) :
    getAttr (retryErrorPayload part) "event.sequence" = none := by
  unfold retryErrorPayload
  (repeat' split) <;> simp [getAttr_append, getAttr]

theorem getAttr_apiPayload_seq (msg : MsgInfo) (tokens : TokensVal) (model : String) :
    getAttr (apiRequestPayload msg tokens model) "event.sequence" = none := by
  unfold apiRequestPayload
  simp [getAttr]

theorem getAttr_msgErrPayload_seq (e : ErrInfo) :
    getAttr (msgErrorPayload e) "event.sequence" = none := by
  unfold msgErrorPayload
  (repeat' split) <;> simp [getAttr_append, getAttr]

theorem getAttr_sessErrPayload_seq (e : ErrInfo) :
    getAttr (sessionErrorPayload e) "event.sequence" = none := by
  unfold sessionErrorPayload
  (repeat' split) <;> simp [getAttr_append, getAttr]

theorem getAttr_toolPayload_seq (s1 : HookState) (tool : String) (args : Option ArgsVal)
    (output : Option String) (d : Rat) :
    getAttr (toolResultPayload s1 tool args output d) "event.sequence" = none := by
  unfold toolResultPayload
  (repeat' split) <;> simp [getAttr_append, getAttr]

theorem getAttr_userPromptPayload_seq (s1 : HookState) (agent : Option String)
    (model : Option ModelRef) (pt : String) :
    getAttr (userPromptPayload s1 agent model pt) "event.sequence" = none := by
  unfold userPromptPayload
  (repeat' split) <;> simp [getAttr_append, getAttr]

theorem getAttr_toolPayload_duration (s1 : HookState) (tool : String) (args : Option ArgsVal)
    (output : Option String) (d : Rat) :
    getAttr (toolResultPayload s1 tool args output d) "duration_ms" = some (.num d) := by
  unfold toolResultPayload
  (repeat' split) <;> simp [getAttr_append, getAttr]

theorem getAttr_toolPayload_success (s1 : HookState) (tool : String) (args : Option ArgsVal)
    (output : Option String) (d : Rat) :
    getAttr (toolResultPayload s1 tool args output d) "success" =
      some (.bool (toolSuccess output)) := by
  unfold toolResultPayload
  (repeat' split) <;> simp [getAttr_append, getAttr]

theorem getAttr_userPromptPayload_plen (s1 : HookState) (agent : Option String)
    (model : Option ModelRef) (pt : String) :
    getAttr (userPromptPayload s1 agent model pt) "prompt_length" =
      some (.num pt.length) := by
  unfold userPromptPayload
  (repeat' split) <;> simp [getAttr_append, getAttr]

theorem getAttr_userPromptPayload_prompt (s1 : HookState) (agent : Option String)
    (model : Option ModelRef) (pt : String) :
    getAttr (userPromptPayload s1 agent model pt) "prompt" =
      (if s1.config.logUserPrompts then some (.str (pt.take 4096)) else none) := by
  unfold userPromptPayload
  (repeat' split) <;> simp_all [getAttr_append, getAttr]

/-- The state with a different telemetry profile and everything else
unchanged (the profile is fixed at startup; this lets theorems compare the
two profiles on otherwise identical states). -/
def setProfile (s : HookState) (p : Profile) : HookState :=
  { s with config := { s.config with telemetryProfile := p } }

/-- The metric emissions of an emission list, in order. -/
def metricsOf (ems : List Emission) : List Emission :=
  ems.filter Emission.isMetric

theorem metricsOf_append (a b : List Emission) :
    metricsOf (a ++ b) = metricsOf a ++ metricsOf b :=
  List.filter_append a b

theorem metricsOf_eq_self (ems : List Emission)
    (h : ∀ e ∈ ems, e.isMetric = true) : metricsOf ems = ems :=
  List.filter_eq_self.mpr h

theorem seqVals_nil_of_metrics (ems : List Emission)
    (h : ∀ e ∈ ems, e.isMetric = true) : seqVals ems = [] := by
  unfold seqVals
  rw [List.filterMap_eq_nil]
  intro e he
  cases e
  · rfl
  · exact absurd (h _ he) (by simp [Emission.isMetric])

theorem allMetric_tokenMetrics (s : HookState) (sid : Option String)
    (tokens : TokensVal) (model : String) :
    ∀ e ∈ emitTokenMetrics s sid tokens model, e.isMetric = true := by
  intro e he
  unfold emitTokenMetrics at he
  simp only [List.mem_append] at he
  rcases he with ((h | h) | h) | h <;>
    (repeat' split at h) <;> simp_all [Emission.isMetric]

theorem allMetric_costEmissions (s : HookState) (msg : MsgInfo) (model : String) :
    ∀ e ∈ costEmissions s msg model, e.isMetric = true := by
  intro e he
  unfold costEmissions at he
  (repeat' split at he) <;> simp_all [Emission.isMetric]

theorem allMetric_bashGit (s : HookState) (tool : String) (sid : Option String)
    (args : Option ArgsVal) :
    ∀ e ∈ bashGitEmissions s tool sid args, e.isMetric = true := by
  intro e he
  unfold bashGitEmissions at he
  (repeat' split at he) <;> simp_all [Emission.isMetric] <;>
    rcases he with h | h <;> simp_all [Emission.isMetric]

theorem allMetric_writeEdit (s : HookState) (tool : String) (sid : Option String)
    (output : Option String) :
    ∀ e ∈ writeEditEmissions s tool sid output, e.isMetric = true := by
  intro e he
  unfold writeEditEmissions at he
  (repeat' split at he) <;> simp_all [Emission.isMetric]

/-- `SeqSpec s out`: across one handler invocation starting from `s`, the
`event.sequence` values carried by the emitted log events are exactly the
consecutive values starting at the pre-invocation counter, and the counter
advances by their number. -/
def SeqSpec (s : HookState) (out : HookState × List Emission) : Prop :=
  out.1.eventSequence = s.eventSequence + (seqVals out.2).length ∧
  seqVals out.2 = consecFrom s.eventSequence (seqVals out.2).length

theorem seqSpec_nil (s : HookState) (s' : HookState)
    (h : s'.eventSequence = s.eventSequence) : SeqSpec s (s', []) := by
  constructor
  · simp [seqVals, h]
  · rfl

theorem seqSpec_metrics (s : HookState) (s' : HookState) (ems : List Emission)
    (h : s'.eventSequence = s.eventSequence)
    (hm : ∀ e ∈ ems, e.isMetric = true) : SeqSpec s (s', ems) := by
  have hv := seqVals_nil_of_metrics ems hm
  constructor
  · simp [hv, h]
  · simp [hv, consecFrom_zero]

theorem seqSpec_single_emit (s sX : HookState) (sid : Option String) (now : Rat)
    (name : String) (payload : Attrs) (pre : List Emission)
    (hseq : sX.eventSequence = s.eventSequence)
    (hp : getAttr payload "event.sequence" = none)
    (hpre : ∀ e ∈ pre, e.isMetric = true) :
    SeqSpec s ((emitWithEventAttrs sX sid now name payload).1,
               pre ++ [(emitWithEventAttrs sX sid now name payload).2]) := by
  have hv : seqVals (pre ++ [(emitWithEventAttrs sX sid now name payload).2]) =
      [((s.eventSequence : Nat) : Rat)] := by
    rw [seqVals_append, seqVals_nil_of_metrics pre hpre]
    simp [seqVals, seqOf_emitWith sX sid now name payload hp, hseq]
  constructor
  · rw [hv]
    simp [emitWith_state, hseq]
  · rw [hv]
    simp [consecFrom_one]

theorem seqSpec_double_emit (s sX : HookState) (sid sid2 : Option String) (now now2 : Rat)
    (name name2 : String) (payload payload2 : Attrs) (pre : List Emission)
    (hseq : sX.eventSequence = s.eventSequence)
    (hp : getAttr payload "event.sequence" = none)
    (hp2 : getAttr payload2 "event.sequence" = none)
    (hpre : ∀ e ∈ pre, e.isMetric = true) :
    SeqSpec s
      ((emitWithEventAttrs (emitWithEventAttrs sX sid now name payload).1 sid2 now2 name2 payload2).1,
       pre ++ [(emitWithEventAttrs sX sid now name payload).2,
               (emitWithEventAttrs (emitWithEventAttrs sX sid now name payload).1 sid2 now2 name2 payload2).2]) := by
  have h1 : (emitWithEventAttrs sX sid now name payload).1.eventSequence =
      s.eventSequence + 1 := by rw [emitWith_state]; simp [hseq]
  have hv : seqVals (pre ++ [(emitWithEventAttrs sX sid now name payload).2,
      (emitWithEventAttrs (emitWithEventAttrs sX sid now name payload).1 sid2 now2 name2 payload2).2]) =
      [((s.eventSequence : Nat) : Rat), ((s.eventSequence + 1 : Nat) : Rat)] := by
    rw [seqVals_append, seqVals_nil_of_metrics pre hpre]
    simp [seqVals, List.filterMap_cons,
      seqOf_emitWith sX sid now name payload hp,
      seqOf_emitWith (emitWithEventAttrs sX sid now name payload).1 sid2 now2 name2 payload2 hp2,
      hseq, h1]
  constructor
  · rw [hv]
    rw [emitWith_state, h1]
    simp
  · rw [hv]
    show _ = consecFrom s.eventSequence 2
    have h2 : List.range 2 = [0, 1] := rfl
    simp [consecFrom, h2]

/-- The `session.created` emission pair (native profile) satisfies the
sequence specification: one sequence-carrying log event. -/
theorem seqSpec_sessionCreated_log (s s2 : HookState) (sid : String) (title : String)
    (now : Rat) (h2 : s2.eventSequence = s.eventSequence) :
    SeqSpec s ((eventAttributes s2 (some sid) now).2,
      [Emission.metric .sessionCount 1 (commonAttributes s2 (some sid)),
       mkLog (eventAttributes s2 (some sid) now).2.config.telemetryProfile "session.created"
         ((eventAttributes s2 (some sid) now).1 ++ [("session.title", .str title)])]) := by
  have hlog : seqOf (mkLog (eventAttributes s2 (some sid) now).2.config.telemetryProfile
      "session.created"
      ((eventAttributes s2 (some sid) now).1 ++ [("session.title", .str title)])) =
      some ((s2.eventSequence : Nat) : Rat) := by
    simp only [mkLog, seqOf]
    rw [getAttr_cons, getAttr_append]
    have ht : getAttr [("session.title", AttrValue.str title)] "event.sequence" = none := by
      simp [getAttr]
    rw [ht, getAttr_event_seq]
  have hv : seqVals [Emission.metric .sessionCount 1 (commonAttributes s2 (some sid)),
      mkLog (eventAttributes s2 (some sid) now).2.config.telemetryProfile "session.created"
        ((eventAttributes s2 (some sid) now).1 ++ [("session.title", .str title)])] =
      [((s.eventSequence : Nat) : Rat)] := by
    have hm : seqOf (Emission.metric .sessionCount 1 (commonAttributes s2 (some sid))) = none := rfl
    simp [seqVals, List.filterMap_cons, hm, hlog, h2]
  constructor
  · rw [hv]
    rw [eventAttributes_state]
    simp [h2]
  · rw [hv]
    simp [consecFrom_one]

theorem mem_singleton_metric {e : Emission} {i : CounterId} {a : Rat} {at' : Attrs}
    (h : e ∈ [Emission.metric i a at']) : e.isMetric = true := by
  simp only [List.mem_singleton] at h
  subst h; rfl

theorem seqSpec_dispatch (s : HookState) (ev : Ev) (now : Rat) (uuid : String) :
    SeqSpec s (dispatch s ev now uuid) := by
  cases ev with
  | commandBefore c a => exact seqSpec_nil s s rfl
  | other => exact seqSpec_nil s s rfl
  | sessionCreated info idp =>
    show SeqSpec s (handleSessionCreated s info idp now)
    unfold handleSessionCreated
    try dsimp only
    split
    · exact seqSpec_nil s s rfl
    · split
      · exact seqSpec_nil s s rfl
      · split <;> split <;>
          first
            | exact seqSpec_sessionCreated_log s _ _ _ now rfl
            | exact seqSpec_metrics s _ _ rfl (fun e he => mem_singleton_metric he)
  | sessionIdle info idp sidp =>
    show SeqSpec s (handleSessionIdle s info idp sidp now)
    unfold handleSessionIdle
    try dsimp only
    (repeat' split) <;>
      first
        | exact seqSpec_nil s s rfl
        | exact seqSpec_metrics s _ _ rfl (fun e he => mem_singleton_metric he)
        | exact seqSpec_metrics s _ _ rfl (fun e he => by cases he)
  | sessionStatus info idp sidp =>
    show SeqSpec s (handleSessionStatus s info idp sidp now)
    unfold handleSessionStatus
    try dsimp only
    (repeat' split) <;> exact seqSpec_nil s _ rfl
  | fileEdited la a lr r =>
    show SeqSpec s (handleFileEdited s la a lr r)
    unfold handleFileEdited
    try dsimp only
    apply seqSpec_metrics s _ _ rfl
    intro e he
    simp only [List.mem_append] at he
    rcases he with h | h <;> (split at h) <;>
      first
        | exact mem_singleton_metric h
        | cases h
  | messagePartUpdated part psid =>
    show SeqSpec s (handlePartUpdated s part psid now)
    unfold handlePartUpdated
    try dsimp only
    split
    · exact seqSpec_nil s s rfl
    · simpa using seqSpec_single_emit s s (nullishStr part.sessionID psid) now "api_error"
        (retryErrorPayload part) [] rfl (getAttr_retryPayload_seq part)
        (fun e he => by cases he)
  | messageUpdated info =>
    show SeqSpec s (handleMessageUpdated s info now)
    unfold handleMessageUpdated
    try dsimp only
    (repeat' split) <;>
      first
        | exact seqSpec_nil s s rfl
        | skip
    · try simp only [← List.append_assoc]
      refine seqSpec_single_emit s _ _ now "api_request" _ _ rfl
        (getAttr_apiPayload_seq _ _ _) ?_
      intro e he
      rcases List.mem_append.mp he with h | h
      · exact allMetric_tokenMetrics _ _ _ _ e h
      · exact allMetric_costEmissions _ _ _ e h
    · try simp only [← List.append_assoc]
      refine seqSpec_double_emit s _ _ _ now now "api_request" "api_error" _ _ _ rfl
        (getAttr_apiPayload_seq _ _ _) (getAttr_msgErrPayload_seq _) ?_
      intro e he
      rcases List.mem_append.mp he with h | h
      · exact allMetric_tokenMetrics _ _ _ _ e h
      · exact allMetric_costEmissions _ _ _ e h
  | sessionError sid err =>
    show SeqSpec s (handleSessionError s sid err now)
    unfold handleSessionError
    try dsimp only
    split
    · exact seqSpec_nil s s rfl
    · rename_i e
      simpa using seqSpec_single_emit s s sid now "api_error" (sessionErrorPayload e) [] rfl
        (getAttr_sessErrPayload_seq e) (fun e he => by cases he)
  | permissionReplied sid resp =>
    show SeqSpec s (handlePermissionReplied s sid resp)
    unfold handlePermissionReplied
    try dsimp only
    exact seqSpec_metrics s _ _ rfl (fun e he => mem_singleton_metric he)
  | sessionDiff sid diff =>
    show SeqSpec s (handleSessionDiff s sid diff)
    unfold handleSessionDiff
    try dsimp only
    split
    · exact seqSpec_nil s s rfl
    · apply seqSpec_metrics s _ _ rfl
      intro e he
      simp only [List.mem_append] at he
      rcases he with h | h <;> (split at h) <;>
        first
          | exact mem_singleton_metric h
          | cases h
  | toolBefore tool sid cid args =>
    show SeqSpec s (handleToolBefore s tool sid cid args now)
    unfold handleToolBefore
    try dsimp only
    exact seqSpec_nil s _ rfl
  | toolAfter tool sid cid args output =>
    show SeqSpec s (handleToolAfter s tool sid cid args output now)
    unfold handleToolAfter
    try dsimp only
    try simp only [← List.append_assoc]
    refine seqSpec_single_emit s _ _ now "tool_result" _ _ rfl
      (getAttr_toolPayload_seq _ _ _ _ _) ?_
    intro e he
    rcases List.mem_append.mp he with h | h
    · exact allMetric_bashGit _ _ _ _ e h
    · exact allMetric_writeEdit _ _ _ _ e h
  | chatMessage sid agent model parts =>
    show SeqSpec s (handleChatMessage s sid agent model parts now uuid)
    unfold handleChatMessage
    try dsimp only
    simpa using seqSpec_single_emit s { s with promptId := some uuid } sid now "user_prompt"
      (userPromptPayload { s with promptId := some uuid } agent model (cleanedPrompt parts)) [] rfl
      (getAttr_userPromptPayload_seq _ _ _ _) (fun e he => by cases he)

/-- One `handleEvent` invocation satisfies the sequence specification. -/
theorem seqSpec_handleEvent (s : HookState) (ev : Ev) (now : Rat) (uuid : String) :
    SeqSpec s ((handleEvent s ev now uuid).1, (handleEvent s ev now uuid).2.1) := by
  have hgen : ∀ ev', (handleEvent s ev' now uuid =
      (if s.enabled then ((dispatch s ev' now uuid).1, (dispatch s ev' now uuid).2, none)
       else (s, [], none))) ∨
      (∃ c a, ev' = .commandBefore c a) := by
    intro ev'
    cases ev' <;> first | (left; rfl) | (right; exact ⟨_, _, rfl⟩)
  rcases hgen ev with h | ⟨c, a, rfl⟩
  · rw [h]
    split
    · exact seqSpec_dispatch s ev now uuid
    · exact seqSpec_nil s s rfl
  · show SeqSpec s ((handleCommandBefore s c a).1, (handleCommandBefore s c a).2.1)
    unfold handleCommandBefore
    split
    · exact seqSpec_nil s s rfl
    · exact seqSpec_nil s s rfl

/-- Across any run: the `event.sequence` values of all emitted log events
are exactly consecutive from the initial counter, and the counter advances
by their number (so it is never decremented or reset). -/
theorem seqSpec_runSteps (s : HookState) (L : List StepIn) :
    (runSteps s L).1.eventSequence = s.eventSequence + (seqVals (runSteps s L).2).length ∧
    seqVals (runSteps s L).2 = consecFrom s.eventSequence (seqVals (runSteps s L).2).length := by
  induction L generalizing s with
  | nil =>
    constructor
    · simp [runSteps, seqVals]
    · rfl
  | cons i rest ih =>
    obtain ⟨h1, h2⟩ := seqSpec_handleEvent s i.ev i.now i.uuid
    obtain ⟨h3, h4⟩ := ih (handleEvent s i.ev i.now i.uuid).1
    simp only [SeqSpec] at h1 h2
    show (runSteps (handleEvent s i.ev i.now i.uuid).1 rest).1.eventSequence =
        s.eventSequence + (seqVals ((handleEvent s i.ev i.now i.uuid).2.1 ++
          (runSteps (handleEvent s i.ev i.now i.uuid).1 rest).2)).length ∧
      seqVals ((handleEvent s i.ev i.now i.uuid).2.1 ++
          (runSteps (handleEvent s i.ev i.now i.uuid).1 rest).2) =
        consecFrom s.eventSequence
          (seqVals ((handleEvent s i.ev i.now i.uuid).2.1 ++
            (runSteps (handleEvent s i.ev i.now i.uuid).1 rest).2)).length
    rw [seqVals_append, List.length_append]
    constructor
    · rw [h3, h1]
      omega
    · rw [← consecFrom_append s.eventSequence
        (seqVals ((handleEvent s i.ev i.now i.uuid).2.1)).length
        (seqVals (runSteps (handleEvent s i.ev i.now i.uuid).1 rest).2).length]
      rw [← h2]
      rw [← h1, ← h4]

/-- For every event other than the command hook, `handleEvent` is the
enabled-guarded dispatch. -/
theorem handleEvent_noncommand (s : HookState) (ev : Ev) (now : Rat) (uuid : String)
    (h : ∀ c a, ev ≠ .commandBefore c a) :
    handleEvent s ev now uuid =
      if s.enabled then ((dispatch s ev now uuid).1, (dispatch s ev now uuid).2, none)
      else (s, [], none) := by
  cases ev <;> first | rfl | exact absurd rfl (h _ _)

def msgIdOf : Ev → Option String
  | .messageUpdated (some m) => some m.id
  | _ => none

def dedupCount (s : HookState) : List StepIn → String → Nat
  | [], _ => 0
  | i :: rest, m =>
    (if msgIdOf i.ev = some m ∧ (handleEvent s i.ev i.now i.uuid).2.1 ≠ [] then 1 else 0) +
    dedupCount (handleEvent s i.ev i.now i.uuid).1 rest m

theorem msgUpd_marked_noop (s : HookState) (msg : MsgInfo) (now : Rat) (uuid : String)
    (h : msg.id ∈ s.emittedMessageIds) :
    handleEvent s (.messageUpdated (some msg)) now uuid = (s, [], none) := by
  have hd : dispatch s (.messageUpdated (some msg)) now uuid = (s, []) := by
    show handleMessageUpdated s (some msg) now = (s, [])
    unfold handleMessageUpdated
    dsimp only
    (repeat' split) <;> simp_all
  rw [handleEvent_noncommand s _ now uuid (fun c a => by simp)]
  split
  · rw [hd]
  · rfl

theorem msgUpd_step (s : HookState) (msg : MsgInfo) (now : Rat) (uuid : String) :
    handleEvent s (.messageUpdated (some msg)) now uuid = (s, [], none) ∨
    ((handleEvent s (.messageUpdated (some msg)) now uuid).1.emittedMessageIds =
        msg.id :: s.emittedMessageIds ∧
     msg.id ∉ s.emittedMessageIds ∧
     (handleEvent s (.messageUpdated (some msg)) now uuid).2.1 ≠ []) := by
  rw [handleEvent_noncommand s _ now uuid (fun c a => by simp)]
  split
  · have hd : dispatch s (.messageUpdated (some msg)) now uuid =
        handleMessageUpdated s (some msg) now := rfl
    rw [hd]
    unfold handleMessageUpdated
    dsimp only
    (repeat' split) <;>
      first
        | (left; rfl)
        | (right
           refine ⟨rfl, ?_, ?_⟩ <;> simp_all)
  · left; rfl

theorem dispatch_ids (s : HookState) (ev : Ev) (now : Rat) (uuid : String)
    (h : msgIdOf ev = none) :
    (dispatch s ev now uuid).1.emittedMessageIds = s.emittedMessageIds := by
  cases ev
  case messageUpdated info =>
    rcases info with _ | msg
    · rfl
    · exact absurd h (by simp [msgIdOf])
  case sessionCreated info idp =>
    show (handleSessionCreated s info idp now).1.emittedMessageIds = s.emittedMessageIds
    unfold handleSessionCreated
    dsimp only
    (repeat' split) <;> rfl
  case sessionIdle info idp sidp =>
    show (handleSessionIdle s info idp sidp now).1.emittedMessageIds = s.emittedMessageIds
    unfold handleSessionIdle
    dsimp only
    (repeat' split) <;> rfl
  case sessionStatus info idp sidp =>
    show (handleSessionStatus s info idp sidp now).1.emittedMessageIds = s.emittedMessageIds
    unfold handleSessionStatus
    dsimp only
    (repeat' split) <;> rfl
  case messagePartUpdated part psid =>
    show (handlePartUpdated s part psid now).1.emittedMessageIds = s.emittedMessageIds
    unfold handlePartUpdated
    dsimp only
    (repeat' split) <;> rfl
  case sessionError sid err =>
    show (handleSessionError s sid err now).1.emittedMessageIds = s.emittedMessageIds
    unfold handleSessionError
    dsimp only
    (repeat' split) <;> rfl
  case sessionDiff sid diff =>
    show (handleSessionDiff s sid diff).1.emittedMessageIds = s.emittedMessageIds
    unfold handleSessionDiff
    dsimp only
    (repeat' split) <;> rfl
  all_goals rfl

theorem handleEvent_ids (s : HookState) (ev : Ev) (now : Rat) (uuid : String)
    (h : msgIdOf ev = none) :
    (handleEvent s ev now uuid).1.emittedMessageIds = s.emittedMessageIds := by
  by_cases hc : ∀ c a, ev ≠ Ev.commandBefore c a
  · rw [handleEvent_noncommand s ev now uuid hc]
    split
    · exact dispatch_ids s ev now uuid h
    · rfl
  · push_neg at hc
    obtain ⟨c, a, rfl⟩ := hc
    show (handleCommandBefore s c a).1.emittedMessageIds = s.emittedMessageIds
    unfold handleCommandBefore
    split <;> rfl

/-- Case analysis on the message id carried by an event. -/
theorem msgIdOf_cases (ev : Ev) :
    msgIdOf ev = none ∨
    ∃ msg, ev = .messageUpdated (some msg) ∧ msgIdOf ev = some msg.id := by
  unfold msgIdOf
  split
  · rename_i msg
    exact Or.inr ⟨msg, rfl, rfl⟩
  · exact Or.inl rfl

/-- Across any run, the number of steps that carry a given message id and
produce at least one emission is at most one, and zero when the id is
already in the de-duplication set. -/
theorem dedupCount_bound (s : HookState) (L : List StepIn) (m : String) :
    dedupCount s L m ≤ (if m ∈ s.emittedMessageIds then 0 else 1) := by
  induction L generalizing s with
  | nil => simp [dedupCount]
  | cons i rest ih =>
    rw [dedupCount]
    by_cases hm : m ∈ s.emittedMessageIds
    · rw [if_pos hm]
      by_cases hid : msgIdOf i.ev = some m
      · obtain ⟨msg, hmsg, hidm⟩ : ∃ msg, i.ev = .messageUpdated (some msg) ∧ msg.id = m := by
          rcases msgIdOf_cases i.ev with hn | ⟨msg, hmsg, hsome⟩
          · rw [hn] at hid; cases hid
          · refine ⟨msg, hmsg, ?_⟩
            rw [hsome] at hid
            exact Option.some.inj hid
        rw [hmsg] at *
        have hn := msgUpd_marked_noop s msg i.now i.uuid (hidm ▸ hm)
        rw [hn]
        have := ih s
        rw [if_pos hm] at this
        simpa using this
      · rw [if_neg (by intro hcon; exact hid hcon.1)]
        have hids : m ∈ (handleEvent s i.ev i.now i.uuid).1.emittedMessageIds := by
          rcases msgIdOf_cases i.ev with hn | ⟨msg, hmsg, _⟩
          · rw [handleEvent_ids s i.ev i.now i.uuid hn]; exact hm
          · rw [hmsg]
            rcases msgUpd_step s msg i.now i.uuid with he | ⟨hcons, _, _⟩
            · rw [he]; exact hm
            · rw [hcons]; exact List.mem_cons_of_mem _ hm
        have := ih (handleEvent s i.ev i.now i.uuid).1
        rw [if_pos hids] at this
        simpa using this
    · rw [if_neg hm]
      by_cases hstep : msgIdOf i.ev = some m ∧ (handleEvent s i.ev i.now i.uuid).2.1 ≠ []
      · rw [if_pos hstep]
        obtain ⟨hid, hne⟩ := hstep
        obtain ⟨msg, hmsg, hidm⟩ : ∃ msg, i.ev = .messageUpdated (some msg) ∧ msg.id = m := by
          rcases msgIdOf_cases i.ev with hn | ⟨msg, hmsg, hsome⟩
          · rw [hn] at hid; cases hid
          · refine ⟨msg, hmsg, ?_⟩
            rw [hsome] at hid
            exact Option.some.inj hid
        rw [hmsg] at hne ⊢
        rcases msgUpd_step s msg i.now i.uuid with he | ⟨hcons, _, _⟩
        · exact absurd (by rw [he]) hne
        · have hids : m ∈
              (handleEvent s (.messageUpdated (some msg)) i.now i.uuid).1.emittedMessageIds := by
            rw [hcons, hidm]
            exact List.mem_cons_self _ _
          have := ih (handleEvent s (.messageUpdated (some msg)) i.now i.uuid).1
          rw [if_pos hids] at this
          omega
      · rw [if_neg hstep]
        have := ih (handleEvent s i.ev i.now i.uuid).1
        have hle : dedupCount (handleEvent s i.ev i.now i.uuid).1 rest m ≤ 1 := by
          split at this <;> omega
        omega

/-- The metric emissions of one dispatch are identical under the two
profiles: the profile never affects which counters fire, their amounts, or
their attribute sets. -/
theorem metricsOf_dispatch_invariant (s : HookState) (p q : Profile) (ev : Ev)
    (now : Rat) (uuid : String) :
    metricsOf (dispatch (setProfile s p) ev now uuid).2 =
    metricsOf (dispatch (setProfile s q) ev now uuid).2 := by
  cases ev
  case sessionCreated info idp =>
    show metricsOf (handleSessionCreated (setProfile s p) info idp now).2 =
      metricsOf (handleSessionCreated (setProfile s q) info idp now).2
    unfold handleSessionCreated
    dsimp only [setProfile]
    (repeat' split) <;> first | rfl | contradiction
  case messageUpdated info =>
    show metricsOf (handleMessageUpdated (setProfile s p) info now).2 =
      metricsOf (handleMessageUpdated (setProfile s q) info now).2
    unfold handleMessageUpdated
    dsimp only [setProfile]
    (repeat' split) <;> first | rfl | contradiction | (simp only [metricsOf_append] <;> rfl)
  case sessionIdle info idp sidp =>
    show metricsOf (handleSessionIdle (setProfile s p) info idp sidp now).2 =
      metricsOf (handleSessionIdle (setProfile s q) info idp sidp now).2
    unfold handleSessionIdle
    dsimp only [setProfile]
    (repeat' split) <;> first | rfl | contradiction
  case sessionStatus info idp sidp =>
    show metricsOf (handleSessionStatus (setProfile s p) info idp sidp now).2 =
      metricsOf (handleSessionStatus (setProfile s q) info idp sidp now).2
    unfold handleSessionStatus
    dsimp only [setProfile]
    (repeat' split) <;> first | rfl | contradiction
  case messagePartUpdated part psid =>
    show metricsOf (handlePartUpdated (setProfile s p) part psid now).2 =
      metricsOf (handlePartUpdated (setProfile s q) part psid now).2
    unfold handlePartUpdated
    dsimp only [setProfile]
    (repeat' split) <;> first | rfl | contradiction
  case sessionError sid err =>
    show metricsOf (handleSessionError (setProfile s p) sid err now).2 =
      metricsOf (handleSessionError (setProfile s q) sid err now).2
    unfold handleSessionError
    dsimp only [setProfile]
    (repeat' split) <;> first | rfl | contradiction
  case sessionDiff sid diff =>
    show metricsOf (handleSessionDiff (setProfile s p) sid diff).2 =
      metricsOf (handleSessionDiff (setProfile s q) sid diff).2
    unfold handleSessionDiff
    dsimp only [setProfile]
    (repeat' split) <;> first | rfl | contradiction
  case toolAfter tool sid cid args output =>
    show metricsOf (handleToolAfter (setProfile s p) tool sid cid args output now).2 =
      metricsOf (handleToolAfter (setProfile s q) tool sid cid args output now).2
    unfold handleToolAfter
    dsimp only [setProfile]
    simp only [metricsOf_append]
    rfl
  all_goals rfl

theorem metricsOf_handleEvent_invariant (s : HookState) (p q : Profile) (ev : Ev)
    (now : Rat) (uuid : String) :
    metricsOf (handleEvent (setProfile s p) ev now uuid).2.1 =
    metricsOf (handleEvent (setProfile s q) ev now uuid).2.1 := by
  by_cases hc : ∀ c a, ev ≠ Ev.commandBefore c a
  · rw [handleEvent_noncommand (setProfile s p) ev now uuid hc,
        handleEvent_noncommand (setProfile s q) ev now uuid hc]
    have he : (setProfile s p).enabled = (setProfile s q).enabled := rfl
    by_cases hen : (setProfile s p).enabled
    · rw [if_pos hen, if_pos (he ▸ hen)]
      exact metricsOf_dispatch_invariant s p q ev now uuid
    · rw [if_neg hen, if_neg (he ▸ hen)]
  · push_neg at hc
    obtain ⟨c, a, rfl⟩ := hc
    show metricsOf (handleCommandBefore (setProfile s p) c a).2.1 =
      metricsOf (handleCommandBefore (setProfile s q) c a).2.1
    unfold handleCommandBefore
    dsimp only [setProfile]
    (repeat' split) <;> first | rfl | contradiction

/-- In the mirrored profile, every numeric value among an
`emitWithEventAttrs` emission's attributes sits at key `event.sequence`. -/
theorem emitWith_numOnlySeq (s : HookState) (sid : Option String) (now : Rat)
    (name : String) (payload : Attrs)
    (hcc : s.config.telemetryProfile = .claudeCode) :
    ∀ kv ∈ logAttrsOf (emitWithEventAttrs s sid now name payload).2,
      kv.2.isNum = true → kv.1 = "event.sequence" := by
  intro kv hkv hnum
  rw [emitWith_emission] at hkv
  simp only [logAttrsOf] at hkv
  rcases List.mem_cons.mp hkv with h | h
  · subst h; cases hnum
  · rcases List.mem_append.mp h with h | h
    · exact eventAttributes_numOnlySeq s sid now kv h hnum
    · rw [hcc] at h
      simp only [encodeAttrs] at h
      exact absurd hnum (by simp [stringify_noNum _ kv h])

/-- In a list of emissions, every numeric log-attribute value sits at key
`event.sequence`. -/
def NumOnlySeq (ems : List Emission) : Prop :=
  ∀ em ∈ ems, ∀ kv ∈ logAttrsOf em, kv.2.isNum = true → kv.1 = "event.sequence"

theorem numOnlySeq_nil : NumOnlySeq [] := by
  intro em hem
  cases hem

theorem numOnlySeq_append {a b : List Emission} (ha : NumOnlySeq a) (hb : NumOnlySeq b) :
    NumOnlySeq (a ++ b) := by
  intro em hem
  rcases List.mem_append.mp hem with h | h
  · exact ha em h
  · exact hb em h

theorem numOnlySeq_of_metrics (ems : List Emission)
    (h : ∀ e ∈ ems, e.isMetric = true) : NumOnlySeq ems := by
  intro em hem kv hkv
  cases em
  · cases hkv
  · exact absurd (h _ hem) (by simp [Emission.isMetric])

theorem numOnlySeq_single {em : Emission}
    (h : ∀ kv ∈ logAttrsOf em, kv.2.isNum = true → kv.1 = "event.sequence") :
    NumOnlySeq [em] := by
  intro e he
  simp only [List.mem_singleton] at he
  subst he
  exact h

theorem numOnlySeq_dispatch (s : HookState) (ev : Ev) (now : Rat) (uuid : String)
    (hcc : s.config.telemetryProfile = .claudeCode) :
    NumOnlySeq (dispatch s ev now uuid).2 := by
  cases ev
  case commandBefore c a => exact numOnlySeq_nil
  case other => exact numOnlySeq_nil
  case sessionCreated info idp =>
    show NumOnlySeq (handleSessionCreated s info idp now).2
    unfold handleSessionCreated
    dsimp only
    (repeat' split) <;>
      first
        | exact numOnlySeq_nil
        | exact numOnlySeq_of_metrics _ (fun e he => mem_singleton_metric he)
        | (rename_i hprof; exact absurd hcc hprof)
  case sessionIdle info idp sidp =>
    show NumOnlySeq (handleSessionIdle s info idp sidp now).2
    unfold handleSessionIdle
    dsimp only
    (repeat' split) <;>
      first
        | exact numOnlySeq_nil
        | exact numOnlySeq_of_metrics _ (fun e he => mem_singleton_metric he)
  case sessionStatus info idp sidp =>
    show NumOnlySeq (handleSessionStatus s info idp sidp now).2
    unfold handleSessionStatus
    dsimp only
    (repeat' split) <;> exact numOnlySeq_nil
  case fileEdited la a lr r =>
    show NumOnlySeq (handleFileEdited s la a lr r).2
    unfold handleFileEdited
    dsimp only
    apply numOnlySeq_of_metrics
    intro e he
    simp only [List.mem_append] at he
    rcases he with h | h <;> (split at h) <;>
      first
        | exact mem_singleton_metric h
        | cases h
  case messagePartUpdated part psid =>
    show NumOnlySeq (handlePartUpdated s part psid now).2
    unfold handlePartUpdated
    dsimp only
    split
    · exact numOnlySeq_nil
    · exact numOnlySeq_single (emitWith_numOnlySeq _ _ _ _ _ hcc)
  case messageUpdated info =>
    show NumOnlySeq (handleMessageUpdated s info now).2
    unfold handleMessageUpdated
    dsimp only
    (repeat' split) <;>
      first
        | exact numOnlySeq_nil
        | skip
    · refine numOnlySeq_append
        (numOnlySeq_append (numOnlySeq_of_metrics _ ?_) (numOnlySeq_of_metrics _ ?_))
        (numOnlySeq_single (emitWith_numOnlySeq _ _ _ _ _ hcc))
      · exact fun e he => allMetric_tokenMetrics _ _ _ _ e he
      · exact fun e he => allMetric_costEmissions _ _ _ e he
    · refine numOnlySeq_append
        (numOnlySeq_append (numOnlySeq_of_metrics _ ?_) (numOnlySeq_of_metrics _ ?_)) ?_
      · exact fun e he => allMetric_tokenMetrics _ _ _ _ e he
      · exact fun e he => allMetric_costEmissions _ _ _ e he
      · intro em hem
        rcases List.mem_cons.mp hem with h | h
        · subst h; exact emitWith_numOnlySeq _ _ _ _ _ hcc
        · simp only [List.mem_singleton] at h
          subst h; exact emitWith_numOnlySeq _ _ _ _ _ hcc
  case sessionError sid err =>
    show NumOnlySeq (handleSessionError s sid err now).2
    unfold handleSessionError
    dsimp only
    split
    · exact numOnlySeq_nil
    · exact numOnlySeq_single (emitWith_numOnlySeq _ _ _ _ _ hcc)
  case permissionReplied sid resp =>
    show NumOnlySeq (handlePermissionReplied s sid resp).2
    unfold handlePermissionReplied
    dsimp only
    exact numOnlySeq_of_metrics _ (fun e he => mem_singleton_metric he)
  case sessionDiff sid diff =>
    show NumOnlySeq (handleSessionDiff s sid diff).2
    unfold handleSessionDiff
    dsimp only
    split
    · exact numOnlySeq_nil
    · apply numOnlySeq_of_metrics
      intro e he
      simp only [List.mem_append] at he
      rcases he with h | h <;> (split at h) <;>
        first
          | exact mem_singleton_metric h
          | cases h
  case toolBefore tool sid cid args =>
    show NumOnlySeq (handleToolBefore s tool sid cid args now).2
    unfold handleToolBefore
    exact numOnlySeq_nil
  case toolAfter tool sid cid args output =>
    show NumOnlySeq (handleToolAfter s tool sid cid args output now).2
    unfold handleToolAfter
    dsimp only
    refine numOnlySeq_append
      (numOnlySeq_append (numOnlySeq_of_metrics _ ?_) (numOnlySeq_of_metrics _ ?_))
      (numOnlySeq_single (emitWith_numOnlySeq _ _ _ _ _ hcc))
    · exact fun e he => allMetric_bashGit _ _ _ _ e he
    · exact fun e he => allMetric_writeEdit _ _ _ _ e he
  case chatMessage sid agent model parts =>
    show NumOnlySeq (handleChatMessage s sid agent model parts now uuid).2
    unfold handleChatMessage
    dsimp only
    exact numOnlySeq_single (emitWith_numOnlySeq _ _ _ _ _ hcc)

theorem numOnlySeq_handleEvent (s : HookState) (ev : Ev) (now : Rat) (uuid : String)
    (hcc : s.config.telemetryProfile = .claudeCode) :
    NumOnlySeq (handleEvent s ev now uuid).2.1 := by
  by_cases hc : ∀ c a, ev ≠ Ev.commandBefore c a
  · rw [handleEvent_noncommand s ev now uuid hc]
    split
    · exact numOnlySeq_dispatch s ev now uuid hcc
    · exact numOnlySeq_nil
  · push_neg at hc
    obtain ⟨c, a, rfl⟩ := hc
    show NumOnlySeq (handleCommandBefore s c a).2.1
    unfold handleCommandBefore
    split
    · exact numOnlySeq_nil
    · apply numOnlySeq_single
      intro kv hkv
      simp only [mkLog, logAttrsOf] at hkv
      rcases List.mem_cons.mp hkv with h | h
      · subst h; intro hn; cases hn
      · simp only [List.mem_singleton] at h
        subst h; intro hn; cases hn

/-- `true` exactly on the `/otel` toggle command event. -/
def isToggleCmd : Ev → Bool
  | .commandBefore c _ => c == "otel"
  | _ => false

/-- Filtering a list of metric emissions for named log events is empty. -/
theorem filter_logNamed_metrics (n : String) (ems : List Emission)
    (h : ∀ e ∈ ems, e.isMetric = true) :
    ems.filter (Emission.isLogNamed n) = [] := by
  rw [List.filter_eq_nil]
  intro e he
  cases e
  · simp [Emission.isLogNamed]
  · exact absurd (h _ he) (by simp [Emission.isMetric])

/-- A split of a character list has at least one segment (so the write/edit
line-count heuristic never yields zero). -/
theorem splitNl_length_pos (l : List Char) : 1 ≤ (splitNl l).length := by
  induction l with
  | nil => simp [splitNl]
  | cons c t ih =>
    unfold splitNl
    split
    · simp
    · cases h : splitNl t with
      | nil => simp
      | cons a r => simp

/-- The attribute lists of the log-event emissions of a list, in order. -/
def logAttrsList (ems : List Emission) : List Attrs :=
  ems.filterMap (fun em =>
    match em with
    | .logEvent _ _ a => some a
    | .metric _ _ _ => none)

/-- The example configuration used by the concrete witnesses: session ids
included, version excluded, prompt logging on, tool details off. -/
def exConfig (p : Profile) : OtelConfig :=
  ⟨p, true, false, true, false⟩

/-- A fresh dispatcher state over `exConfig` (as built by
`createHookState`: empty registries, sequence zero, enabled). -/
def exState (p : Profile) : HookState :=
  ⟨exConfig p, [], [], [], 0, true, "user-1", none, none, none⟩

/-- The example state with one registered session whose last activity was
at time 1000. -/
def exIdleState : HookState :=
  { exState .opencode with sessions := [("s1", ⟨"s1", 1000, 1000⟩)] }

/-- C1: across any run of inbound events, a given message id yields at most one
emitting `message.updated` step, and none at all when the id is already in the
de-duplication set at the start of the run. -/
theorem claim1_message_dedup_at_most_once (s : HookState) (L : List StepIn) (m : String) :
    dedupCount s L m ≤ (if m ∈ s.emittedMessageIds then 0 else 1) :=
  dedupCount_bound s L m

/-- C2, counterexample to the original wording: in the claude-code profile the
`event.sequence` attribute of the emitted `user_prompt` log event stays numeric
while the numeric payload value `prompt_length` is stringified. -/
theorem claim2_counterexample :
    (logAttrsList (handleEvent (exState .claudeCode)
        (.chatMessage (some "s1") none none [⟨"text", some "hello world"⟩]) 5 "u").2.1).map
      (fun a => getAttr a "event.sequence") = [some (.num 0)] ∧
    (logAttrsList (handleEvent (exState .claudeCode)
        (.chatMessage (some "s1") none none [⟨"text", some "hello world"⟩]) 5 "u").2.1).map
      (fun a => getAttr a "prompt_length") = [some (.str "11")] := by
  decide

/-- C2 (amended): in the claude-code profile, every attribute value on every
emitted log event is non-numeric except possibly the `event.sequence`
attribute, and the metric emissions (names, values and data-point attributes)
are identical to those of the opencode profile on an otherwise equal state. -/
theorem claim2_mirrored_encoding_amended (s : HookState) (ev : Ev) (now : Rat) (uuid : String) :
    NumOnlySeq (handleEvent (setProfile s .claudeCode) ev now uuid).2.1 ∧
    metricsOf (handleEvent (setProfile s .claudeCode) ev now uuid).2.1 =
      metricsOf (handleEvent (setProfile s .opencode) ev now uuid).2.1 :=
  ⟨numOnlySeq_handleEvent _ ev now uuid rfl,
   metricsOf_handleEvent_invariant s .claudeCode .opencode ev now uuid⟩

/-- C3, counterexample to the original wording: the `telemetry.toggled` log
event of the `/otel` command is emitted without reading or incrementing the
sequence counter and carries no `event.sequence` attribute, so not every
log-event emission increments the counter. -/
theorem claim3_counterexample :
    (handleEvent (exState .opencode) (.commandBefore "otel" "") 0 "u").2.1.length = 1 ∧
    (handleEvent (exState .opencode) (.commandBefore "otel" "") 0 "u").2.1.countP
      Emission.isMetric = 0 ∧
    (handleEvent (exState .opencode) (.commandBefore "otel" "") 0 "u").1.eventSequence =
      (exState .opencode).eventSequence ∧
    seqVals (handleEvent (exState .opencode) (.commandBefore "otel" "") 0 "u").2.1 = [] := by
  decide

/-- C3 (amended): across any run, the `event.sequence` values carried by the
emitted log events are exactly the consecutive integers starting at the
counter's initial value, in emission order, and the counter advances by their
number (zero-based first value on a fresh state, never reset). -/
theorem claim3_sequence_amended (s : HookState) (L : List StepIn) :
    (runSteps s L).1.eventSequence = s.eventSequence + (seqVals (runSteps s L).2).length ∧
    seqVals (runSteps s L).2 =
      consecFrom s.eventSequence (seqVals (runSteps s L).2).length :=
  seqSpec_runSteps s L

/-- A metric emission never matches a log-event name. -/
theorem isLogNamed_false_of_metric (n : String) (e : Emission) (h : e.isMetric = true) :
    e.isLogNamed n = false := by
  cases e
  · rfl
  · exact absurd h (by simp [Emission.isMetric])

/-- C4: a `tool.execute.after` whose call id has no pending record still emits
exactly one `tool_result` log event, and that event carries
`duration_ms = 0` (profile-encoded), with no error raised. -/
theorem claim4_orphan_tool_after (s : HookState) (tool : String) (sid : Option String)
    (cid : String) (args : Option ArgsVal) (output : Option String) (now : Rat)
    (uuid : String) (hEn : s.enabled = true)
    (hNo : alGet s.pendingToolCalls cid = none) :
    ((handleEvent s (.toolAfter tool sid cid args output) now uuid).2.1.filter
       (Emission.isLogNamed "tool_result")).length = 1 ∧
    ∀ em ∈ (handleEvent s (.toolAfter tool sid cid args output) now uuid).2.1,
      em.isLogNamed "tool_result" = true →
      getAttr (logAttrsOf em) "duration_ms" =
        some (encodeNumVal s.config.telemetryProfile 0) := by
  rw [handleEvent_noncommand s _ now uuid (fun c a => by simp), if_pos hEn]
  have hd : dispatch s (.toolAfter tool sid cid args output) now uuid =
      handleToolAfter s tool sid cid args output now := rfl
  dsimp only
  rw [hd]
  unfold handleToolAfter
  rw [hNo]
  dsimp only
  constructor
  · rw [List.filter_append, List.filter_append,
      filter_logNamed_metrics _ _ (allMetric_bashGit _ _ _ _),
      filter_logNamed_metrics _ _ (allMetric_writeEdit _ _ _ _)]
    rw [emitWith_emission]
    simp [Emission.isLogNamed]
  · intro em hem hlog
    rcases List.mem_append.mp hem with h | h
    · rcases List.mem_append.mp h with h | h
      · exact absurd hlog
          (by rw [isLogNamed_false_of_metric _ _ (allMetric_bashGit _ _ _ _ _ h)]; simp)
      · exact absurd hlog
          (by rw [isLogNamed_false_of_metric _ _ (allMetric_writeEdit _ _ _ _ _ h)]; simp)
    · simp only [List.mem_singleton] at h
      subst h
      rw [getAttr_emitWith_payload _ _ _ _ _ _ _ (getAttr_toolPayload_duration _ _ _ _ _)]
      cases s.config.telemetryProfile <;> rfl

/-- Witness for C4 at a concrete orphan tool call. -/
theorem claim4_witness :
    (exState .opencode).enabled = true ∧
    alGet (exState .opencode).pendingToolCalls "c1" = none ∧
    (((handleEvent (exState .opencode) (.toolAfter "read" none "c1" none (some "hello")) 7
        "u").2.1.filter (Emission.isLogNamed "tool_result")).length = 1 ∧
     ∀ em ∈ (handleEvent (exState .opencode)
        (.toolAfter "read" none "c1" none (some "hello")) 7 "u").2.1,
       em.isLogNamed "tool_result" = true →
       getAttr (logAttrsOf em) "duration_ms" =
         some (encodeNumVal (exState .opencode).config.telemetryProfile 0)) :=
  ⟨by decide, by decide,
   claim4_orphan_tool_after (exState .opencode) "read" none "c1" none (some "hello") 7 "u"
     (by decide) (by decide)⟩

/-- Modelled from the amended claim's words: on `session.idle`, when the
session id resolves to a registered session, `lastActivityAt` is always
refreshed to now, and the `active_time.total` counter fires exactly when
the elapsed seconds are strictly positive; otherwise nothing happens. -/
def idleSpecAmended (s : HookState) (info : Option SessionInfo)
    (idp sidp : Option String) (now : Rat) : HookState × List Emission :=
  match nullishStr (info.bind (·.id)) (nullishStr idp sidp) with
  | none => (s, [])
  | some sid =>
    if sid = "" then (s, [])
    else
      match alGet s.sessions sid with
      | none => (s, [])
      | some session =>
        ({ s with sessions := alSet s.sessions sid { session with lastActivityAt := now } },
         if 0 < (now - session.lastActivityAt) / 1000 then
           [Emission.metric .activeTime ((now - session.lastActivityAt) / 1000)
              (commonAttributes s (some sid))]
         else [])

/-- C5, counterexample to the original wording: on `session.idle` with
elapsed ≤ 0 no metric fires, but `lastActivityAt` is still refreshed to `now`,
so the session state does change. -/
theorem claim5_counterexample :
    handleEvent exIdleState (.sessionIdle none (some "s1") none) 500 "u" =
      ({ exIdleState with sessions := [("s1", ⟨"s1", 1000, 500⟩)] }, [], none) ∧
    ¬(0 : Rat) < ((500 : Rat) - 1000) / 1000 ∧
    ({ exIdleState with sessions := [("s1", ⟨"s1", 1000, 500⟩)] } : HookState) ≠ exIdleState := by
  have hneg : ¬(0 : Rat) < ((500 : Rat) - 1000) / 1000 := by norm_num
  refine ⟨?_, hneg, by decide⟩
  rw [handleEvent_noncommand exIdleState _ 500 "u" (fun c a => by simp),
    if_pos (show exIdleState.enabled = true from rfl)]
  have hstep : handleSessionIdle exIdleState none (some "s1") none 500 =
      ({ exIdleState with sessions := [("s1", ⟨"s1", 1000, 500⟩)] },
       if (0 : Rat) < ((500 : Rat) - 1000) / 1000 then
         [Emission.metric .activeTime (((500 : Rat) - 1000) / 1000)
            (commonAttributes exIdleState (some "s1"))]
       else []) := rfl
  have hd : dispatch exIdleState (.sessionIdle none (some "s1") none) 500 "u" =
      handleSessionIdle exIdleState none (some "s1") none 500 := rfl
  dsimp only
  rw [hd, hstep, if_neg hneg]

/-- C5 (amended): `session.idle` refines `idleSpecAmended` — when the session
id resolves to a registered session, `lastActivityAt` is always refreshed to
`now` and `active_time.total` fires exactly when the elapsed seconds are
strictly positive; otherwise nothing happens. -/
theorem claim5_idle_amended (s : HookState) (info : Option SessionInfo)
    (idp sidp : Option String) (now : Rat) (uuid : String) (hEn : s.enabled = true) :
    handleEvent s (.sessionIdle info idp sidp) now uuid =
      ((idleSpecAmended s info idp sidp now).1, (idleSpecAmended s info idp sidp now).2,
       none) := by
  rw [handleEvent_noncommand s _ now uuid (fun c a => by simp), if_pos hEn]
  rfl

/-- Witness for C5 with strictly positive elapsed time. -/
theorem claim5_witness :
    exIdleState.enabled = true ∧
    handleEvent exIdleState (.sessionIdle none (some "s1") none) 3000 "u" =
      ((idleSpecAmended exIdleState none (some "s1") none 3000).1,
       (idleSpecAmended exIdleState none (some "s1") none 3000).2, none) ∧
    (idleSpecAmended exIdleState none (some "s1") none 3000).2 =
      [Emission.metric .activeTime 2
         [("user.id", .str "user-1"), ("session.id", .str "s1")]] := by
  refine ⟨by decide,
    claim5_idle_amended exIdleState none (some "s1") none 3000 "u" (by decide), ?_⟩
  have hstep : (idleSpecAmended exIdleState none (some "s1") none 3000).2 =
      (if (0 : Rat) < ((3000 : Rat) - 1000) / 1000 then
         [Emission.metric .activeTime (((3000 : Rat) - 1000) / 1000)
            (commonAttributes exIdleState (some "s1"))]
       else []) := rfl
  have h2 : ((3000 : Rat) - 1000) / 1000 = 2 := by norm_num
  rw [hstep, if_pos (by norm_num), h2]
  decide

/-- C6: while the enabled flag is false every non-toggle event is a complete
no-op (no emission, no state change), and the `/otel` toggle command is always
processed, flipping the flag and emitting `telemetry.toggled`. -/
theorem claim6_disabled_skips_all (s : HookState) (h : s.enabled = false) :
    (∀ ev now uuid, isToggleCmd ev = false → handleEvent s ev now uuid = (s, [], none)) ∧
    (∀ a now uuid, handleEvent s (.commandBefore "otel" a) now uuid =
      ({ s with enabled := toggleTarget a s.enabled },
       [mkLog s.config.telemetryProfile "telemetry.toggled"
          [("telemetry.enabled", .bool (toggleTarget a s.enabled))]],
       some ⟨toggleTarget a s.enabled⟩)) := by
  constructor
  · intro ev now uuid hnt
    by_cases hc : ∀ c a, ev ≠ Ev.commandBefore c a
    · rw [handleEvent_noncommand s ev now uuid hc, if_neg (by simp [h])]
    · push_neg at hc
      obtain ⟨c, a, rfl⟩ := hc
      show handleCommandBefore s c a = (s, [], none)
      unfold handleCommandBefore
      have hco : c ≠ "otel" := by simpa [isToggleCmd] using hnt
      rw [if_pos hco]
  · intro a now uuid
    show handleCommandBefore s "otel" a = _
    unfold handleCommandBefore
    rw [if_neg (by simp)]

/-- Witness for C6 on a disabled state. -/
theorem claim6_witness :
    handleEvent { exState .opencode with enabled := false }
        (.sessionCreated (some ⟨some "s1", some "T", none⟩) none) 3 "u" =
      ({ exState .opencode with enabled := false }, [], none) ∧
    handleEvent { exState .opencode with enabled := false } (.commandBefore "otel" "on") 4 "u" =
      ({ { exState .opencode with enabled := false } with
          enabled := toggleTarget "on" { exState .opencode with enabled := false }.enabled },
       [mkLog { exState .opencode with enabled := false }.config.telemetryProfile
          "telemetry.toggled"
          [("telemetry.enabled", .bool (toggleTarget "on"
              { exState .opencode with enabled := false }.enabled))]],
       some ⟨toggleTarget "on" { exState .opencode with enabled := false }.enabled⟩) :=
  ⟨(claim6_disabled_skips_all { exState .opencode with enabled := false } (by decide)).1
     _ 3 "u" (by decide),
   (claim6_disabled_skips_all { exState .opencode with enabled := false } (by decide)).2
     "on" 4 "u"⟩

/-- C7: `session.created` increments the `session.count` counter in both
profiles, and emits the `session.created` log event exactly when the active
profile is opencode (the claude-code profile suppresses the log event while
the metric still fires). -/
theorem claim7_session_created_profiles (s : HookState) (info : Option SessionInfo)
    (idp : Option String) (now : Rat) (uuid : String) (sid : String)
    (hEn : s.enabled = true)
    (hres : nullishStr (info.bind (·.id)) idp = some sid)
    (hne : sid ≠ "") :
    ((handleEvent s (.sessionCreated info idp) now uuid).2.1.countP
       (fun em => match em with
         | .metric .sessionCount _ _ => true
         | _ => false)) = 1 ∧
    ((handleEvent s (.sessionCreated info idp) now uuid).2.1.countP
       (Emission.isLogNamed "session.created")) =
      (if s.config.telemetryProfile = .opencode then 1 else 0) := by
  rw [handleEvent_noncommand s _ now uuid (fun c a => by simp), if_pos hEn]
  have hd : dispatch s (.sessionCreated info idp) now uuid =
      handleSessionCreated s info idp now := rfl
  dsimp only
  rw [hd]
  unfold handleSessionCreated
  rw [hres]
  dsimp only
  rw [if_neg hne]
  split <;> split
  case isTrue.isTrue hprof | isFalse.isTrue hprof =>
    have ho : s.config.telemetryProfile = .opencode := by
      rcases hq : s.config.telemetryProfile
      · rfl
      · exact absurd hq hprof
    rw [ho]
    constructor <;> simp [List.countP_cons, Emission.isLogNamed, mkLog]
  case isTrue.isFalse hprof | isFalse.isFalse hprof =>
    have hcc : s.config.telemetryProfile = .claudeCode := not_not.mp hprof
    rw [hcc]
    constructor <;> simp [List.countP_cons, Emission.isLogNamed]

/-- Modelled from the claim's words for C8: concatenate ALL text-typed parts
joined by newline (no truthiness filter on the text), trim surrounding
whitespace and strip one layer of surrounding double quotes. -/
def claimPromptText (parts : List MsgPart) : String :=
  stripOuterQuotes (jsTrim (String.intercalate "\n"
    ((parts.filter (fun p => p.type == "text")).map (fun p => p.text.getD ""))))

/-- C8, counterexample to the original wording: text parts whose text is empty
are filtered out before joining, so on parts `a`, `""`, `b` the emitted
`prompt_length` is 3, not the 4 produced by joining all text-typed parts. -/
theorem claim8_counterexample :
    ((handleEvent (exState .opencode)
        (.chatMessage (some "s1") none none
          [⟨"text", some "a"⟩, ⟨"text", some ""⟩, ⟨"text", some "b"⟩]) 5 "u").2.1.map
       (fun e => getAttr (logAttrsOf e) "prompt_length")) = [some (.num 3)] ∧
    claimPromptText [⟨"text", some "a"⟩, ⟨"text", some ""⟩, ⟨"text", some "b"⟩] = "a\n\nb" ∧
    cleanedPrompt [⟨"text", some "a"⟩, ⟨"text", some ""⟩, ⟨"text", some "b"⟩] = "a\nb" ∧
    (claimPromptText [⟨"text", some "a"⟩, ⟨"text", some ""⟩, ⟨"text", some "b"⟩]).length = 4 := by
  refine ⟨?_, by decide, by decide, by decide⟩
  decide

/-- C8 (amended): `chat.message` emits exactly one `user_prompt` log event;
its `prompt_length` is the length of the cleaned prompt (text parts with
non-empty text, joined by newline, trimmed, outer quotes stripped),
profile-encoded, and the `prompt` attribute is present — truncated to 4096
characters — exactly when prompt logging is enabled. -/
theorem claim8_prompt_amended (s : HookState) (sid : Option String)
    (agent : Option String) (model : Option ModelRef) (parts : List MsgPart)
    (now : Rat) (uuid : String) (hEn : s.enabled = true) :
    ∃ e, (handleEvent s (.chatMessage sid agent model parts) now uuid).2.1 = [e] ∧
      Emission.isLogNamed "user_prompt" e = true ∧
      getAttr (logAttrsOf e) "prompt_length" =
        some (encodeNumVal s.config.telemetryProfile ((cleanedPrompt parts).length : Rat)) ∧
      getAttr (logAttrsOf e) "prompt" =
        (if s.config.logUserPrompts
         then some (.str ((cleanedPrompt parts).take 4096)) else none) := by
  rw [handleEvent_noncommand s _ now uuid (fun c a => by simp), if_pos hEn]
  refine ⟨(emitWithEventAttrs { s with promptId := some uuid } sid now "user_prompt"
      (userPromptPayload { s with promptId := some uuid } agent model
        (cleanedPrompt parts))).2, rfl, rfl, ?_, ?_⟩
  · rw [getAttr_emitWith_payload _ _ _ _ _ _ _
      (getAttr_userPromptPayload_plen { s with promptId := some uuid } agent model
        (cleanedPrompt parts))]
    have hcfg : ({ s with promptId := some uuid } : HookState).config.telemetryProfile =
        s.config.telemetryProfile := rfl
    rw [hcfg]
    cases s.config.telemetryProfile <;> rfl
  · by_cases hl : s.config.logUserPrompts = true
    · have hp : getAttr (userPromptPayload { s with promptId := some uuid } agent model
          (cleanedPrompt parts)) "prompt" = some (.str ((cleanedPrompt parts).take 4096)) := by
        rw [getAttr_userPromptPayload_prompt, if_pos hl]
      rw [getAttr_emitWith_payload _ _ _ _ _ _ _ hp, if_pos hl]
      have hcfg : ({ s with promptId := some uuid } : HookState).config.telemetryProfile =
          s.config.telemetryProfile := rfl
      rw [hcfg]
      cases s.config.telemetryProfile <;> rfl
    · have hp : getAttr (userPromptPayload { s with promptId := some uuid } agent model
          (cleanedPrompt parts)) "prompt" = none := by
        rw [getAttr_userPromptPayload_prompt, if_neg hl]
      rw [getAttr_emitWith_none _ _ _ _ _ _ hp (by decide) (by decide) (by decide)
        (by decide) (by decide) (by decide) (by decide) (by decide), if_neg hl]

/-- Witness for C8 on the Hello / image / World scenario (prompt length 11). -/
theorem claim8_witness :
    (∃ e, (handleEvent (exState .opencode)
        (.chatMessage (some "s1") none none
          [⟨"text", some "Hello"⟩, ⟨"image", none⟩, ⟨"text", some "World"⟩]) 9 "u").2.1 = [e] ∧
      Emission.isLogNamed "user_prompt" e = true ∧
      getAttr (logAttrsOf e) "prompt_length" =
        some (encodeNumVal (exState .opencode).config.telemetryProfile
          ((cleanedPrompt [⟨"text", some "Hello"⟩, ⟨"image", none⟩,
              ⟨"text", some "World"⟩]).length : Rat)) ∧
      getAttr (logAttrsOf e) "prompt" =
        (if (exState .opencode).config.logUserPrompts
         then some (.str ((cleanedPrompt [⟨"text", some "Hello"⟩, ⟨"image", none⟩,
             ⟨"text", some "World"⟩]).take 4096)) else none)) ∧
    cleanedPrompt [⟨"text", some "Hello"⟩, ⟨"image", none⟩, ⟨"text", some "World"⟩] =
      "Hello\nWorld" ∧
    (cleanedPrompt [⟨"text", some "Hello"⟩, ⟨"image", none⟩, ⟨"text", some "World"⟩]).length
      = 11 :=
  ⟨claim8_prompt_amended (exState .opencode) (some "s1") none none
     [⟨"text", some "Hello"⟩, ⟨"image", none⟩, ⟨"text", some "World"⟩] 9 "u" rfl,
   by decide, by decide⟩

/-- C9: every `tool.execute.after` emits a `tool_result` log event (preceded
only by metric emissions) whose `success` attribute is the boolean
`toolSuccess output`, which is false exactly when the output text contains the
substring `Error` and true otherwise, including when the output is absent. -/
theorem claim9_tool_success (s : HookState) (tool : String) (sid : Option String)
    (cid : String) (args : Option ArgsVal) (output : Option String)
    (now : Rat) (uuid : String) (hEn : s.enabled = true) :
    ∃ pre e,
      (handleEvent s (.toolAfter tool sid cid args output) now uuid).2.1 = pre ++ [e] ∧
      (∀ x ∈ pre, x.isMetric = true) ∧
      Emission.isLogNamed "tool_result" e = true ∧
      getAttr (logAttrsOf e) "success" = some (.bool (toolSuccess output)) ∧
      (toolSuccess output = false ↔ ∃ o, output = some o ∧ jsIncludes o "Error" = true) := by
  rw [handleEvent_noncommand s _ now uuid (fun c a => by simp), if_pos hEn]
  refine ⟨bashGitEmissions { s with pendingToolCalls := alDelete s.pendingToolCalls cid }
        tool sid args
      ++ writeEditEmissions { s with pendingToolCalls := alDelete s.pendingToolCalls cid }
        tool sid output,
    (emitWithEventAttrs { s with pendingToolCalls := alDelete s.pendingToolCalls cid }
        sid now "tool_result"
        (toolResultPayload { s with pendingToolCalls := alDelete s.pendingToolCalls cid }
          tool args output
          (match alGet s.pendingToolCalls cid with
           | some p => now - p.startedAt
           | none => 0))).2,
    ?_, ?_, rfl, ?_, ?_⟩
  · show (handleToolAfter s tool sid cid args output now).2 = _
    unfold handleToolAfter
    dsimp only
  · intro x hx
    rw [List.mem_append] at hx
    rcases hx with h | h
    · exact allMetric_bashGit _ tool sid args x h
    · exact allMetric_writeEdit _ tool sid output x h
  · rw [getAttr_emitWith_payload _ _ _ _ _ _ _
      (getAttr_toolPayload_success _ tool args output _)]
    have hcfg : ({ s with pendingToolCalls := alDelete s.pendingToolCalls cid }
        : HookState).config.telemetryProfile = s.config.telemetryProfile := rfl
    rw [hcfg]
    cases s.config.telemetryProfile <;> rfl
  · cases output with
    | none => simp [toolSuccess]
    | some o => simp [toolSuccess]

/-- Witness for C9 with a benign output, plus concrete values of the success
heuristic on both kinds of output. -/
theorem claim9_witness :
    (∃ pre e,
      (handleEvent (exState .opencode)
        (.toolAfter "grep" (some "s1") "c1" none (some "no matches")) 11 "u").2.1
        = pre ++ [e] ∧
      (∀ x ∈ pre, x.isMetric = true) ∧
      Emission.isLogNamed "tool_result" e = true ∧
      getAttr (logAttrsOf e) "success" = some (.bool (toolSuccess (some "no matches"))) ∧
      (toolSuccess (some "no matches") = false ↔
        ∃ o, (some "no matches" : Option String) = some o ∧ jsIncludes o "Error" = true)) ∧
    toolSuccess (some "no matches") = true ∧
    toolSuccess (some "Error: not found") = false :=
  ⟨claim9_tool_success (exState .opencode) "grep" (some "s1") "c1" none
     (some "no matches") 11 "u" rfl,
   by decide, by decide⟩

/-- C10: for a `tool.execute.after` whose tool is write or edit, the
`lines_of_code.count` increment is always emitted, with value the number of
newline-separated segments of the output text — at least 1 even for absent or
empty output, so the zero-guard never suppresses it. -/
theorem claim10_write_edit_lines (s : HookState) (tool : String) (sid : Option String)
    (cid : String) (args : Option ArgsVal) (output : Option String)
    (now : Rat) (uuid : String) (hEn : s.enabled = true)
    (htool : tool = "write" ∨ tool = "edit") :
    ((handleEvent s (.toolAfter tool sid cid args output) now uuid).2.1.filterMap
       (fun e => match e with
         | .metric .linesOfCode n _ => some n
         | _ => none)) = [((writeEditLineCount output : Nat) : Rat)] ∧
    1 ≤ writeEditLineCount output := by
  have hlc : 1 ≤ writeEditLineCount output := splitNl_length_pos _
  refine ⟨?_, hlc⟩
  rw [handleEvent_noncommand s _ now uuid (fun c a => by simp), if_pos hEn]
  show ((handleToolAfter s tool sid cid args output now).2.filterMap _) = _
  unfold handleToolAfter
  dsimp only
  rw [List.filterMap_append, List.filterMap_append]
  have hbg : bashGitEmissions { s with pendingToolCalls := alDelete s.pendingToolCalls cid }
      tool sid args = [] := by
    unfold bashGitEmissions
    rcases htool with h | h <;> subst h <;> rw [if_neg (by decide)]
  have hwe : writeEditEmissions { s with pendingToolCalls := alDelete s.pendingToolCalls cid }
      tool sid output =
      [Emission.metric .linesOfCode (writeEditLineCount output)
        (commonAttributes { s with pendingToolCalls := alDelete s.pendingToolCalls cid } sid
         ++ [("type", .str (if tool = "write" then "added" else "modified"))])] := by
    unfold writeEditEmissions
    have hlc0 : 0 < writeEditLineCount output := hlc
    rw [if_pos htool, if_pos hlc0]
  rw [hbg, hwe, emitWith_emission]
  simp [List.filterMap]

/-- Witness for C10 with absent output (one segment). -/
theorem claim10_witness :
    (((handleEvent (exState .opencode)
        (.toolAfter "write" (some "s1") "c2" none none) 13 "u").2.1.filterMap
       (fun e => match e with
         | .metric .linesOfCode n _ => some n
         | _ => none)) = [((writeEditLineCount none : Nat) : Rat)] ∧
      1 ≤ writeEditLineCount none) ∧
    writeEditLineCount none = 1 :=
  ⟨claim10_write_edit_lines (exState .opencode) "write" (some "s1") "c2" none none 13 "u"
     rfl (Or.inl rfl),
   by decide⟩

/-- Witness for C7 in the claude-code profile. -/
theorem claim7_witness :
    ((handleEvent (exState .claudeCode)
        (.sessionCreated (some ⟨some "s1", some "T", some "0.5.0"⟩) none) 17 "u").2.1.countP
       (fun em => match em with
         | .metric .sessionCount _ _ => true
         | _ => false)) = 1 ∧
    ((handleEvent (exState .claudeCode)
        (.sessionCreated (some ⟨some "s1", some "T", some "0.5.0"⟩) none) 17 "u").2.1.countP
       (Emission.isLogNamed "session.created")) =
      (if (exState .claudeCode).config.telemetryProfile = .opencode then 1 else 0) :=
  claim7_session_created_profiles (exState .claudeCode)
    (some ⟨some "s1", some "T", some "0.5.0"⟩) none 17 "u" "s1" rfl rfl (by decide)
